import Mathlib

/-!
Device linking of plantastic: a shallow embedding of the device model
(`internal/models/device.go`), the linking manager
(`internal/device/manager.go`), its HTTP handlers
(`cmd/api/handlers/device.go`), the storage helpers (`internal/storage`) and
the authentication part of the terminal client (`cmd/tui/main.go`), with the
properties of the device linking flow.

* The `devices` table is a list of rows. A query on it never fails for
  transient reasons; the branches of the manager that handle such failures are
  kept in the functions that take the outcome of the query as an argument
  (`validateResult`, `tokenResult`, `afterUpdate`).
* `time.Time` is an integer count of nanoseconds, `time.Now()` is an argument.
* A Go `error` built with `fmt.Errorf` is its message; `%w` wrapping is
  concatenation of messages, which is what `err.Error()` yields.
* `uuid.New().String()` is an argument (the drawn UUID in text form).
* What lies outside the repository is an argument: the token verifier
  `jwt.Verify`, `strings.ToLower`, `time.Parse`, the database behind
  `GetGardensByQuery`, the widgets and key bindings of the terminal client, and
  the outcome of its HTTP exchange.
-/

namespace Plantastic

deriving instance DecidableEq for Except

/-! ## Data model (`internal/models/device.go`) -/

/-- An instant (`time.Time`), in nanoseconds. -/
abbrev Time := Int

/-- The row type `models.Device`. An unset `Token` is the empty string. -/
structure Device where
  ID : String
  UserCode : String
  DeviceID : String
  Token : String
  CreatedAt : Time
  UpdatedAt : Time
  ExpiresAt : Time
  LastUsedAt : Option Time
deriving DecidableEq, Repr

/-- The rows of the `devices` table. -/
abbrev Store := List Device

/-- The store's unique index on `user_code`. -/
def UniqueUserCodes (db : Store) : Prop := (db.map Device.UserCode).Nodup

instance (db : Store) : Decidable (UniqueUserCodes db) := by
  unfold UniqueUserCodes; infer_instance

/-- The store's unique index on `device_id`. -/
def UniqueDeviceIDs (db : Store) : Prop := (db.map Device.DeviceID).Nodup

instance (db : Store) : Decidable (UniqueDeviceIDs db) := by
  unfold UniqueDeviceIDs; infer_instance

/-- The store's primary key on `id`. -/
def UniqueIDs (db : Store) : Prop := (db.map Device.ID).Nodup

instance (db : Store) : Decidable (UniqueIDs db) := by
  unfold UniqueIDs; infer_instance

/-! ## The store primitives the manager uses (gorm) -/

/-- The errors a gorm query reports: the `gorm.ErrRecordNotFound` sentinel, or
any other failure with its message. -/
inductive GormError where
  | ErrRecordNotFound
  | other (msg : String)
deriving DecidableEq, Repr

/-- The text of a gorm error (`err.Error()`). -/
def GormError.Error : GormError → String
  | .ErrRecordNotFound => "record not found"
  | .other msg => msg

/-- One step of `ORDER BY id LIMIT 1`: keep the row with the smaller id. -/
def pickFirst (best : Option Device) (r : Device) : Option Device :=
  match best with
  | none => some r
  | some b => if r.ID < b.ID then some r else some b

/-- The query `db.Where("user_code = ?", userCode).First(&deviceAuth)`: the row
with the least primary key among those with the given user code, or
`ErrRecordNotFound`. -/
def firstByUserCode (db : Store) (userCode : String) : Except GormError Device :=
  match (db.filter (fun r => r.UserCode == userCode)).foldl pickFirst none with
  | none => .error .ErrRecordNotFound
  | some r => .ok r

/-- The outcome of a gorm write: `result.Error` and `result.RowsAffected`. -/
structure WriteResult where
  Error : Option GormError
  RowsAffected : Nat
deriving DecidableEq, Repr

/-- The `WHERE` clause of the update in `SetTokenForUserCode`:
`user_code = ?` from `Where`, and `id = ?` from `Model(&deviceAuth)` when the
model's primary key is not the zero value. -/
def updateMatches (model : Device) (userCode : String) (r : Device) : Bool :=
  r.UserCode == userCode && (model.ID == "" || r.ID == model.ID)

/-- The statement `db.Model(&deviceAuth).Where("user_code = ?", userCode).Update("token", token)`:
every matching row gets the token and a fresh `updated_at`. -/
def updateToken (db : Store) (model : Device) (userCode token : String) (now : Time) :
    Store × WriteResult :=
  (db.map (fun r =>
      if updateMatches model userCode r then { r with Token := token, UpdatedAt := now } else r),
    { Error := none, RowsAffected := (db.filter (updateMatches model userCode)).length })

/-- The statement `db.Create(&deviceAuth)`: the insert is refused when it would
break the primary key or one of the unique indexes of `models.Device`. -/
def create (db : Store) (d : Device) : Store × WriteResult :=
  if d.ID ∈ db.map Device.ID then
    (db, { Error := some (.other "UNIQUE constraint failed: devices.id"), RowsAffected := 0 })
  else if d.UserCode ∈ db.map Device.UserCode then
    (db, { Error := some (.other "UNIQUE constraint failed: devices.user_code"), RowsAffected := 0 })
  else if d.DeviceID ∈ db.map Device.DeviceID then
    (db, { Error := some (.other "UNIQUE constraint failed: devices.device_id"), RowsAffected := 0 })
  else
    (db ++ [d], { Error := none, RowsAffected := 1 })

/-- The hook `Device.BeforeCreate`: a row without an id gets a fresh UUID. -/
def BeforeCreate (d : Device) (idDraw : String) : Device :=
  if d.ID == "" then { d with ID := idDraw } else d

/-! ## The manager (`internal/device/manager.go`) -/

/-- The constant `UserCodeDuration = 15 * time.Minute`, in nanoseconds. -/
def UserCodeDuration : Int := 15 * (60 * 1000000000)

/-- The text `strings.ToUpper(s[:6])` for an ASCII string `s`. -/
def upperPrefix6 (s : String) : String :=
  String.mk ((s.data.take 6).map Char.toUpper)

/-- The user code `fmt.Sprintf(UserCodeFormat, ...)` of a drawn UUID. -/
def userCodeOf (u : String) : String := "PLANT-" ++ upperPrefix6 u

/-- The function `Manager.NewCode`: `u` and `idDraw` are the two UUIDs drawn
(for the code and, in the `BeforeCreate` hook, for the id). -/
def NewCode (db : Store) (deviceID u idDraw : String) (now : Time) :
    Except String String × Store :=
  if deviceID == "" then
    (.error "deviceID cannot be empty", db)
  else
    let userCode := userCodeOf u
    let expiresAt := now + UserCodeDuration
    let deviceAuth : Device :=
      { ID := "", DeviceID := deviceID, UserCode := userCode, Token := "",
        CreatedAt := now, UpdatedAt := now, ExpiresAt := expiresAt, LastUsedAt := none }
    let (db', res) := create db (BeforeCreate deviceAuth idDraw)
    match res.Error with
    | some err => (.error ("failed to create device auth record: " ++ err.Error), db')
    | none => (.ok userCode, db')

/-- The body of `Manager.ValidateUserCode` after its query. -/
def validateResult (res : Except GormError Device) (now : Time) : Except String Device :=
  match res with
  | .error .ErrRecordNotFound => .error "invalid user code"
  | .error err => .error ("database error validating user code: " ++ err.Error)
  | .ok deviceAuth =>
    if now > deviceAuth.ExpiresAt then
      .error "user code expired"
    else if deviceAuth.Token != "" then
      .error "user code already activated"
    else
      .ok deviceAuth

/-- The function `Manager.ValidateUserCode`. -/
def ValidateUserCode (db : Store) (userCode : String) (now : Time) : Except String Device :=
  validateResult (firstByUserCode db userCode) now

/-- The end of `Manager.SetTokenForUserCode`, after its update. -/
def afterUpdate (userCode : String) (result : WriteResult) : Except String Unit :=
  match result.Error with
  | some err =>
    .error ("failed to update token for user code " ++ userCode ++ ": " ++ err.Error)
  | none =>
    if result.RowsAffected == 0 then
      .error ("no device record found for user code " ++ userCode ++
        " to update token (should not happen after ValidateUserCode)")
    else
      .ok ()

/-- The function `Manager.SetTokenForUserCode`, run without interference: the
update sees the table the validation saw. -/
def SetTokenForUserCode (db : Store) (userCode token : String) (now : Time) :
    Except String Unit × Store :=
  if userCode == "" || token == "" then
    (.error "userCode and token cannot be empty", db)
  else
    match ValidateUserCode db userCode now with
    | .error err => (.error ("cannot set token: " ++ err), db)
    | .ok deviceAuth =>
      let (db', result) := updateToken db deviceAuth userCode token now
      (afterUpdate userCode result, db')

/-- The body of `Manager.GetTokenForUserCode` after its query. -/
def tokenResult (res : Except GormError Device) (now : Time) : Except String String :=
  match res with
  | .error .ErrRecordNotFound => .error "invalid user code"
  | .error err => .error ("database error retrieving token: " ++ err.Error)
  | .ok deviceAuth =>
    if deviceAuth.Token == "" && decide (now > deviceAuth.ExpiresAt) then
      .error "user code expired and was not activated"
    else if deviceAuth.Token == "" then
      .error "token not yet available for this user code"
    else
      .ok deviceAuth.Token

/-- The function `Manager.GetTokenForUserCode`. -/
def GetTokenForUserCode (db : Store) (userCode : String) (now : Time) : Except String String :=
  tokenResult (firstByUserCode db userCode) now

/-! ## Named outcomes -/

/-- The not-found error of `ValidateUserCode` and `GetTokenForUserCode`. -/
def errNotFound : String := "invalid user code"

/-- The expired error of `ValidateUserCode`. -/
def errExpired : String := "user code expired"

/-- The already-activated error of `ValidateUserCode`. -/
def errAlreadyActivated : String := "user code already activated"

/-- The expired error of `GetTokenForUserCode`. -/
def errExpiredNotActivated : String := "user code expired and was not activated"

/-- The pending outcome of `GetTokenForUserCode`. -/
def errPending : String := "token not yet available for this user code"

/-- An error of `ValidateUserCode` as `SetTokenForUserCode` returns it. -/
def cannotSet (err : String) : String := "cannot set token: " ++ err

/-! ## Sequences of calls -/

/-- A call of one of the manager's four functions, with its arguments (and, for
`NewCode`, the two UUIDs it draws). -/
inductive Op where
  | NewCode (deviceID u idDraw : String)
  | ValidateUserCode (userCode : String)
  | SetTokenForUserCode (userCode token : String)
  | GetTokenForUserCode (userCode : String)
deriving DecidableEq, Repr

/-- The table after one call made at instant `now`. `ValidateUserCode` and
`GetTokenForUserCode` only query. -/
def step (db : Store) (now : Time) : Op → Store
  | .NewCode deviceID u idDraw => (NewCode db deviceID u idDraw now).2
  | .ValidateUserCode _ => db
  | .SetTokenForUserCode userCode token => (SetTokenForUserCode db userCode token now).2
  | .GetTokenForUserCode _ => db

/-- The table after a sequence of calls, each made at its own instant and run
to its end before the next starts. -/
def run (db : Store) : List (Time × Op) → Store
  | [] => db
  | (now, op) :: rest => run (step db now op) rest

/-- Whether a call is a `SetTokenForUserCode` on `userCode` that succeeds on
the table `db` at instant `now`. -/
def isBindOf (userCode : String) (db : Store) (now : Time) : Op → Bool
  | .SetTokenForUserCode c t =>
    c == userCode && decide ((SetTokenForUserCode db c t now).1 = .ok ())
  | _ => false

/-- Whether some `SetTokenForUserCode` on `userCode` succeeds in the course of
a sequence of calls. -/
def bindSucceeds (userCode : String) (db : Store) : List (Time × Op) → Bool
  | [] => false
  | (now, op) :: rest =>
    isBindOf userCode db now op || bindSucceeds userCode (step db now op) rest

/-! ## Calls of `SetTokenForUserCode` that overlap

A call makes two round trips to the table, the query of `ValidateUserCode` and
the update; each is one statement, and no transaction joins them. Calls that
overlap are sequences of such round trips, taken in any order. -/

/-- How far a call of `SetTokenForUserCode` has got: not begun, validated (it
holds the row the query returned, the update is still to come), or returned. -/
inductive BindState where
  | start
  | validated (deviceAuth : Device)
  | done (result : Except String Unit)
deriving DecidableEq, Repr

/-- A call of `SetTokenForUserCode` with its arguments and how far it has got. -/
structure BindCall where
  userCode : String
  token : String
  state : BindState
deriving DecidableEq, Repr

/-- The next round trip of a call of `SetTokenForUserCode`, made at instant
`now` on the table as it stands then. -/
def advance (db : Store) (now : Time) (c : BindCall) : BindCall × Store :=
  match c.state with
  | .start =>
    if c.userCode == "" || c.token == "" then
      ({ c with state := .done (.error "userCode and token cannot be empty") }, db)
    else
      match ValidateUserCode db c.userCode now with
      | .error err => ({ c with state := .done (.error ("cannot set token: " ++ err)) }, db)
      | .ok deviceAuth => ({ c with state := .validated deviceAuth }, db)
  | .validated deviceAuth =>
    let (db', result) := updateToken db deviceAuth c.userCode c.token now
    ({ c with state := .done (afterUpdate c.userCode result) }, db')
  | .done _ => (c, db)

/-- The calls and the table after call number `i` makes its next round trip. -/
def advanceAt (db : Store) (calls : List BindCall) (i : Nat) (now : Time) :
    List BindCall × Store :=
  match calls[i]? with
  | none => (calls, db)
  | some c => (calls.set i (advance db now c).1, (advance db now c).2)

/-- The calls and the table after a schedule: which call moves, and when. -/
def runSchedule (db : Store) (calls : List BindCall) :
    List (Nat × Time) → List BindCall × Store
  | [] => (calls, db)
  | (i, now) :: rest =>
    runSchedule (advanceAt db calls i now).2 (advanceAt db calls i now).1 rest

/-- The results and the table after calls of `SetTokenForUserCode` on one user
code made one after the other, each with its instant and token. -/
def bindAll (db : Store) (userCode : String) :
    List (Time × String) → List (Except String Unit) × Store
  | [] => ([], db)
  | (now, token) :: rest =>
    ((SetTokenForUserCode db userCode token now).1 ::
        (bindAll (SetTokenForUserCode db userCode token now).2 userCode rest).1,
      (bindAll (SetTokenForUserCode db userCode token now).2 userCode rest).2)

/-- The error of `SetTokenForUserCode` when its update affects no row. -/
def errNoRecord (userCode : String) : String :=
  "no device record found for user code " ++ userCode ++
    " to update token (should not happen after ValidateUserCode)"

/-- Something that happens to the table: a manager call run from its start to
its end (`call`), or the next round trip of one of the calls of
`SetTokenForUserCode` that are under way (`advance`). -/
inductive Event where
  | call (now : Time) (op : Op)
  | advance (i : Nat) (now : Time)
deriving DecidableEq, Repr

/-- The calls under way and the table after a sequence of events. -/
def runEvents (db : Store) (calls : List BindCall) : List Event → List BindCall × Store
  | [] => (calls, db)
  | .call now op :: rest => runEvents (step db now op) calls rest
  | .advance i now :: rest =>
    runEvents (advanceAt db calls i now).2 (advanceAt db calls i now).1 rest

/-- Whether a call of `SetTokenForUserCode` on `userCode` stands between its
validation and its update. -/
def pendingOn (userCode : String) (c : BindCall) : Bool :=
  c.userCode == userCode &&
    match c.state with
    | .validated _ => true
    | _ => false

/-- Two calls on `PLANT-AB12CD` that have not begun, with `tok-X` and `tok-Y`. -/
def twoCalls : List BindCall :=
  [⟨"PLANT-AB12CD", "tok-X", .start⟩, ⟨"PLANT-AB12CD", "tok-Y", .start⟩]

/-! ## Sample rows -/

/-- A live, unbound row for `PLANT-AB12CD`, expiring at instant 900. -/
def issuedRow : Device :=
  { ID := "id-1", UserCode := "PLANT-AB12CD", DeviceID := "dev-1", Token := "",
    CreatedAt := 0, UpdatedAt := 0, ExpiresAt := 900, LastUsedAt := none }

/-- The row `issuedRow` once `tok-X` is bound to it. -/
def activatedRow : Device := { issuedRow with Token := "tok-X" }

/-- The error `SetTokenForUserCode` gives for a row whose token is set. -/
def activatedBindError (r : Device) (token : String) (now : Time) : String :=
  if r.UserCode = "" ∨ token = "" then "userCode and token cannot be empty"
  else if now > r.ExpiresAt then cannotSet errExpired
  else cannotSet errAlreadyActivated

/-! ## Generated codes -/

/-- The row `NewCode` hands to the store: the literal it builds, after the
`BeforeCreate` hook has given it the id `idDraw`. -/
def issuedRecord (deviceID u idDraw : String) (now : Time) : Device :=
  BeforeCreate
    { ID := "", DeviceID := deviceID, UserCode := userCodeOf u, Token := "",
      CreatedAt := now, UpdatedAt := now, ExpiresAt := now + UserCodeDuration,
      LastUsedAt := none } idDraw

/-- The digits of a UUID in text form, as `uuid.UUID.String` writes them. -/
def hexLower : List Char := "0123456789abcdef".data

/-- The characters of the upper-case hexadecimal numerals. -/
def hexUpper : List Char := "0123456789ABCDEF".data

/-- The shape `xxxxxxxx-xxxx-xxxx-xxxx-xxxxxxxxxxxx` of one character at
position `i` of a canonical UUID: a hyphen at 8, 13, 18 and 23, a hexadecimal
digit elsewhere (lower-case as `uuid.UUID.String` writes it; upper-case is
admitted as well). -/
def canonicalAt (i : Nat) (c : Char) : Bool :=
  if i == 8 || i == 13 || i == 18 || i == 23 then c == '-'
  else decide (c ∈ hexLower ++ hexUpper)

/-- Whether the characters from position `i` on have the canonical shape. -/
def canonicalFrom : Nat → List Char → Bool
  | _, [] => true
  | i, c :: cs => canonicalAt i c && canonicalFrom (i + 1) cs

/-- A UUID string in canonical form, the form of `uuid.New().String()`:
36 characters, hyphens at 8, 13, 18 and 23, hexadecimal digits elsewhere. -/
def CanonicalUUID (u : String) : Prop :=
  u.data.length = 36 ∧ canonicalFrom 0 u.data = true

instance (u : String) : Decidable (CanonicalUUID u) := by
  unfold CanonicalUUID; infer_instance

/-- The spec's `Issue`, in its words, to compare `NewCode` with: on a collision
of the generated code it tries again with the next draw, and fails with a
storage error when every draw of a bounded supply collides. -/
def specIssueWithRetry (db : Store) (deviceID : String) (now : Time) :
    List (String × String) → Except String String × Store
  | [] => (.error "storage error: every generated code collided", db)
  | (u, idDraw) :: rest =>
    if userCodeOf u ∈ db.map Device.UserCode then
      specIssueWithRetry db deviceID now rest
    else
      NewCode db deviceID u idDraw now

/-! ## The HTTP handlers (`cmd/api/handlers/device.go`) -/

/-- A value of a `gin.H` response body. -/
inductive Value where
  | str (s : String)
  | int (n : Int)
deriving DecidableEq, Repr

/-- What `c.JSON(status, body)` sends: the status and the fields of the body. -/
structure Response where
  status : Nat
  body : List (String × Value)
deriving DecidableEq, Repr

/-- The outcome of a handler: its response, the table it leaves, and the calls
it made to the manager, in order. -/
structure HandlerResult where
  response : Response
  db : Store
  calls : List Op
deriving DecidableEq, Repr

/-- The claims `jwt.Verify` returns for a token it accepts. -/
structure Claims where
  Subject : String
deriving DecidableEq, Repr

/-- The external verifier `jwt.Verify`: the claims of a token, or an error. -/
abbrev Verifier := String → Except String Claims

/-- The struct `AuthenticateDeviceRequest`; a field the body does not carry is
the empty string. -/
structure AuthenticateDeviceRequest where
  UserCode : String
  Token : String
deriving DecidableEq, Repr

/-- The text of the validator for a field that fails `binding:"required"`. -/
def requiredError (structName field : String) : String :=
  "Key: '" ++ structName ++ "." ++ field ++ "' Error:Field validation for '" ++ field ++
    "' failed on the 'required' tag"

/-- The call `c.ShouldBindJSON(&req)` for an `AuthenticateDeviceRequest`: the
body is decoded (`body` is the outcome of the decoder), then both fields are
required to be non-empty. -/
def bindAuthenticateDeviceRequest (body : Except String AuthenticateDeviceRequest) :
    Except String AuthenticateDeviceRequest :=
  match body with
  | .error err => .error err
  | .ok req =>
    if req.UserCode == "" && req.Token == "" then
      .error (requiredError "AuthenticateDeviceRequest" "UserCode" ++ "\n" ++
        requiredError "AuthenticateDeviceRequest" "Token")
    else if req.UserCode == "" then
      .error (requiredError "AuthenticateDeviceRequest" "UserCode")
    else if req.Token == "" then
      .error (requiredError "AuthenticateDeviceRequest" "Token")
    else
      .ok req

/-- The handler `DeviceHandler.AuthenticateDevice` (POST /device/link). -/
def AuthenticateDevice (verify : Verifier) (db : Store)
    (body : Except String AuthenticateDeviceRequest) (now : Time) : HandlerResult :=
  match bindAuthenticateDeviceRequest body with
  | .error err =>
    { response := ⟨400, [("error", .str ("Invalid request body: " ++ err))]⟩,
      db := db, calls := [] }
  | .ok req =>
    match verify req.Token with
    | .error err =>
      { response := ⟨401, [("error", .str ("Invalid Clerk session token: " ++ err))]⟩,
        db := db, calls := [] }
    | .ok _ =>
      let (res, db') := SetTokenForUserCode db req.UserCode req.Token now
      match res with
      | .error err =>
        if err == "invalid user code" || err == "user code expired" ||
            err == "user code already activated" then
          { response := ⟨400, [("error", .str ("Cannot link device: " ++ err))]⟩,
            db := db', calls := [.SetTokenForUserCode req.UserCode req.Token] }
        else
          { response := ⟨500, [("error", .str ("Failed to link device: " ++ err))]⟩,
            db := db', calls := [.SetTokenForUserCode req.UserCode req.Token] }
      | .ok _ =>
        { response := ⟨200, [("message", .str
            "Device linking initiated successfully. TUI can now poll for the token.")]⟩,
          db := db', calls := [.SetTokenForUserCode req.UserCode req.Token] }

/-- A verifier that accepts the token `good-jwt` alone. -/
def sampleVerifier : Verifier := fun token =>
  if token == "good-jwt" then .ok ⟨"user_1"⟩ else .error "token is invalid"

/-- The struct `GenerateCodeRequest`; a field the body does not carry is the
empty string. -/
structure GenerateCodeRequest where
  DeviceID : String
deriving DecidableEq, Repr

/-- The call `c.ShouldBindJSON(&req)` for a `GenerateCodeRequest`: the body is
decoded (`body` is the outcome of the decoder), then `device_id` is required
to be non-empty. -/
def bindGenerateCodeRequest (body : Except String GenerateCodeRequest) :
    Except String GenerateCodeRequest :=
  match body with
  | .error err => .error err
  | .ok req =>
    if req.DeviceID == "" then
      .error (requiredError "GenerateCodeRequest" "DeviceID")
    else
      .ok req

/-- The number `int(d.Seconds())` for a duration `d` of whole seconds or more:
the seconds of `d`, the fraction dropped. -/
def durationSeconds (d : Int) : Int := d.tdiv 1000000000

/-- The handler `DeviceHandler.GenerateCode` (POST /device/request-code); `u`
and `idDraw` are the UUIDs `NewCode` draws. -/
def GenerateCode (db : Store) (body : Except String GenerateCodeRequest)
    (u idDraw : String) (now : Time) : HandlerResult :=
  match bindGenerateCodeRequest body with
  | .error err =>
    { response := ⟨400, [("error", .str ("Invalid request: " ++ err))]⟩,
      db := db, calls := [] }
  | .ok req =>
    let (res, db') := NewCode db req.DeviceID u idDraw now
    match res with
    | .error err =>
      { response := ⟨500, [("error", .str ("Failed to generate code: " ++ err))]⟩,
        db := db', calls := [.NewCode req.DeviceID u idDraw] }
    | .ok userCode =>
      { response := ⟨200, [("user_code", .str userCode),
          ("verification_uri", .str "/verify-device"),
          ("expires_in", .int (durationSeconds UserCodeDuration)),
          ("interval", .int 5)]⟩,
        db := db', calls := [.NewCode req.DeviceID u idDraw] }

/-- The handler `DeviceHandler.CheckStatus` (GET /device/check-status); `code`
is the query parameter, empty when the request has none. -/
def CheckStatus (verify : Verifier) (db : Store) (code : String) (now : Time) :
    HandlerResult :=
  if code == "" then
    { response := ⟨400, [("error", .str "user_code query parameter is required")]⟩,
      db := db, calls := [] }
  else
    match GetTokenForUserCode db code now with
    | .error err =>
      if err == "token not yet available for this user code" then
        { response := ⟨200, [("status", .str "pending_activation")]⟩,
          db := db, calls := [.GetTokenForUserCode code] }
      else if err == "invalid user code" ||
          err == "user code expired and was not activated" then
        { response := ⟨404, [("error", .str err), ("status", .str "failed")]⟩,
          db := db, calls := [.GetTokenForUserCode code] }
      else
        { response := ⟨500, [("error", .str ("Error checking status: " ++ err)),
            ("status", .str "failed")]⟩,
          db := db, calls := [.GetTokenForUserCode code] }
    | .ok token =>
      match verify token with
      | .error err =>
        { response := ⟨401, [("error", .str ("Stored token is invalid: " ++ err)),
            ("status", .str "failed")]⟩,
          db := (SetTokenForUserCode db code "" now).2,
          calls := [.GetTokenForUserCode code, .SetTokenForUserCode code ""] }
      | .ok _ =>
        { response := ⟨200, [("status", .str "activated"), ("token", .str token),
            ("token_type", .str "Bearer")]⟩,
          db := db, calls := [.GetTokenForUserCode code] }

/-- The row `issuedRow` holding a token the sample verifier accepts. -/
def verifiedRow : Device := { issuedRow with Token := "good-jwt" }

/-- What a call may do to a row: leave it, or give it the token and the
`updated_at` of a `SetTokenForUserCode` on its user code. -/
def RowKept (userCode token : String) (now : Time) (r r' : Device) : Prop :=
  r' = r ∨ (r.UserCode = userCode ∧ r' = { r with Token := token, UpdatedAt := now })

/-- Two states of a row with the same id, user code, device id, creation and
expiry: at most the token, `updated_at` and `last_used_at` differ. -/
def SameIdentity (r r' : Device) : Prop :=
  r'.ID = r.ID ∧ r'.UserCode = r.UserCode ∧ r'.DeviceID = r.DeviceID ∧
    r'.ExpiresAt = r.ExpiresAt ∧ r'.CreatedAt = r.CreatedAt

/-- The rows of `db` are still in `db'`, each at its place and with its
identity: no row is removed, moved or given another id, user code, device id,
creation or expiry. -/
def Preserved (db db' : Store) : Prop :=
  ∀ (i : Nat) (r : Device), db[i]? = some r → ∃ r', db'[i]? = some r' ∧ SameIdentity r r'

/-! ## The storage layer (`internal/storage`) -/

/-- The sentinel errors of the storage layer, with the texts
`api/internal/storage/errors.go` gives them. -/
inductive StorageError where
  | ErrRecordNotFound
  | ErrDatabase
  | ErrValidation
  | ErrConflict
  | ErrForeignKeyViolation
  | ErrUnauthorized
  | ErrInvalidQuery
  | ErrOperationFailed
  | ErrTransactionFailed
  | ErrTimeout
deriving DecidableEq, Repr

/-- The text of a sentinel (`err.Error()`). -/
def StorageError.Error : StorageError → String
  | .ErrRecordNotFound => "record not found"
  | .ErrDatabase => "database error"
  | .ErrValidation => "validation error"
  | .ErrConflict => "resource conflict"
  | .ErrForeignKeyViolation => "foreign key violation"
  | .ErrUnauthorized => "unauthorized access"
  | .ErrInvalidQuery => "invalid query parameters"
  | .ErrOperationFailed => "operation failed"
  | .ErrTransactionFailed => "transaction failed"
  | .ErrTimeout => "operation timed out"

/-- A non-nil Go error as the helpers inspect it: its text, whether
`errors.Is` finds `gorm.ErrRecordNotFound` in its chain, and the storage
sentinels `errors.Is` finds in its chain. -/
structure GoError where
  Error : String
  isGormNotFound : Bool
  sentinels : List StorageError
deriving DecidableEq, Repr

/-- A storage sentinel as an error value: its chain is itself alone. -/
def StorageError.asError (e : StorageError) : GoError :=
  { Error := e.Error, isGormNotFound := false, sentinels := [e] }

/-- An error made by `errors.New(text)`. -/
def errorsNew (text : String) : GoError :=
  { Error := text, isGormNotFound := false, sentinels := [] }

/-- Whether `sub` occurs in `s`, on lists of characters. -/
def containsAt : List Char → List Char → Bool
  | [], sub => sub.isPrefixOf []
  | c :: cs, sub => sub.isPrefixOf (c :: cs) || containsAt cs sub

/-- The function `strings.Contains`. -/
def strContains (s sub : String) : Bool := containsAt s.data sub.data

/-- The function `strings.ToLower` on ASCII text. -/
def asciiLower (s : String) : String := String.mk (s.data.map Char.toLower)

/-- The function `ParseDatabaseError` of `helpers.go`; `ToLower` is
`strings.ToLower`, and `none` is the nil error. -/
def ParseDatabaseError (ToLower : String → String) (err : Option GoError) :
    Option StorageError :=
  match err with
  | none => none
  | some err =>
    let errMsg := ToLower err.Error
    if err.isGormNotFound then
      some .ErrRecordNotFound
    else if strContains errMsg "deadlock" || strContains errMsg "deadlock found" then
      some .ErrTransactionFailed
    else if strContains errMsg "connection" then
      some .ErrDatabase
    else if strContains errMsg "timeout" then
      some .ErrTimeout
    else if strContains errMsg "unique constraint failed" then
      some .ErrConflict
    else if strContains errMsg "foreign key constraint failed" then
      some .ErrForeignKeyViolation
    else
      some .ErrDatabase

/-- The function `IsTemporaryError` of `helpers.go`; `none` is the nil error,
in whose chain `errors.Is` finds nothing. -/
def IsTemporaryError (err : Option GoError) : Bool :=
  match err with
  | none => false
  | some err =>
    err.sentinels.contains .ErrTimeout ||
      err.sentinels.contains .ErrTransactionFailed ||
      (err.sentinels.contains .ErrDatabase && strContains err.Error "connection")

/-- The struct `models.Garden`. -/
structure Garden where
  ID : String
  Name : String
  Location : String
  Description : String
  CreatedAt : Time
  UpdatedAt : Time
deriving DecidableEq, Repr

/-- A condition `query.Where(sql, arg)`. -/
structure Condition where
  sql : String
  arg : String
deriving DecidableEq, Repr

/-- The map `allowedParams` of `GetGardensByQuery`. -/
def allowedParams : List String := ["name", "createdStart", "createdEnd", "size"]

/-- The outcome of `GetGardensByQuery`: the gardens or the error it returns,
and the queries it ran on the database (the conditions of each `Find`). -/
structure QueryOutcome where
  result : Except StorageError (List Garden)
  finds : List (List Condition)
deriving DecidableEq, Repr

/-- The function `GetGardensByQuery`. The map `params` is a list of pairs with
distinct keys; `validRFC3339 v` is whether `time.Parse(time.RFC3339, v)`
succeeds; `find` is the database answering `query.Find(&gardens)`, with the
gardens or an error text. -/
def GetGardensByQuery (validRFC3339 : String → Bool)
    (find : List Condition → Except String (List Garden))
    (params : List (String × String)) : QueryOutcome :=
  if params.any (fun kv => !allowedParams.contains kv.1) then
    { result := .error .ErrInvalidQuery, finds := [] }
  else
    let query : List Condition := []
    let query := match params.lookup "name" with
      | some name => query ++ [⟨"name LIKE ?", "%" ++ name ++ "%"⟩]
      | none => query
    match params.lookup "createdStart" with
    | some createdStart =>
      if !validRFC3339 createdStart then
        { result := .error .ErrValidation, finds := [] }
      else
        let query := query ++ [⟨"created_at >= ?", createdStart⟩]
        match params.lookup "createdEnd" with
        | some createdEnd =>
          if !validRFC3339 createdEnd then
            { result := .error .ErrValidation, finds := [] }
          else
            let query := query ++ [⟨"created_at <= ?", createdEnd⟩]
            match find query with
            | .error _ => { result := .error .ErrDatabase, finds := [query] }
            | .ok gardens => { result := .ok gardens, finds := [query] }
        | none =>
          match find query with
          | .error _ => { result := .error .ErrDatabase, finds := [query] }
          | .ok gardens => { result := .ok gardens, finds := [query] }
    | none =>
      match params.lookup "createdEnd" with
      | some createdEnd =>
        if !validRFC3339 createdEnd then
          { result := .error .ErrValidation, finds := [] }
        else
          let query := query ++ [⟨"created_at <= ?", createdEnd⟩]
          match find query with
          | .error _ => { result := .error .ErrDatabase, finds := [query] }
          | .ok gardens => { result := .ok gardens, finds := [query] }
      | none =>
        match find query with
        | .error _ => { result := .error .ErrDatabase, finds := [query] }
        | .ok gardens => { result := .ok gardens, finds := [query] }

/-- A stand-in for `time.Parse(time.RFC3339, v)` that accepts one timestamp. -/
def sampleRFC3339 (v : String) : Bool := v == "2024-05-01T00:00:00Z"

/-- A database that answers every query with no garden. -/
def emptyFind : List Condition → Except String (List Garden) := fun _ => .ok []

/-! ## The terminal client (`cmd/tui/main.go`) -/

/-- The UI state `stateAuth`. -/
def stateAuth : Nat := 0

/-- The UI state `stateSplash`. -/
def stateSplash : Nat := 1

/-- The UI state `stateLoading`. -/
def stateLoading : Nat := 2

/-- The UI state `stateReady`. -/
def stateReady : Nat := 3

/-- The auth state `authStateNone`. -/
def authStateNone : Nat := 0

/-- The auth state `authStateWaitingForCode`. -/
def authStateWaitingForCode : Nat := 1

/-- The auth state `authStateWaitingForAuth`. -/
def authStateWaitingForAuth : Nat := 2

/-- The tab `dashboardTab`; `gardensTab`, `bedsTab`, `tasksTab` and
`settingsTab` are 1, 2, 3 and 4. -/
def dashboardTab : Nat := 0

/-- The duration `time.Millisecond`, in nanoseconds. -/
def Millisecond : Int := 1000000

/-- The duration `time.Second`, in nanoseconds. -/
def Second : Int := 1000000000

/-- A 64-bit signed integer: the value of an `int64` computation that
overflows. -/
def wrapInt64 (x : Int) : Int := (x + 2 ^ 63) % 2 ^ 64 - 2 ^ 63

/-- The message a timer of `tea.Tick` delivers when it fires. -/
inductive TickResult where
  | tickMsg
  | loadingTickMsg
  | authPendingMsg
deriving DecidableEq, Repr

/-- A command (`tea.Cmd`) of the client; `nil` is the nil command. The
commands of the widgets are `component`. -/
inductive Cmd where
  | nil
  | Quit
  | spinnerTick
  | requestDeviceCode (deviceID : String)
  | checkAuthStatus (deviceCode : String)
  | Tick (d : Int) (result : TickResult)
  | Batch (cmds : List Cmd)
  | component (name : String)

/-- A message (`tea.Msg`) delivered to `Update`. A value of type `tea.Cmd` is a
message like any other when a command returns it (`cmd`); `other` is a message
of a type `Update` has no case for. -/
inductive Msg where
  | KeyMsg (key : String)
  | tickMsg
  | deviceCodeMsg (code verificationURI : String) (interval expiresIn : Int)
  | authPendingMsg
  | authSuccessMsg (token : String)
  | errMsg (error : String)
  | WindowSizeMsg (Width Height : Int)
  | loadingTickMsg
  | spinnerTickMsg
  | cmd (c : Cmd)
  | other (type : String)

/-- A ticker made by `time.NewTicker`: its period, and whether `Stop` was
called on it. -/
structure Ticker where
  period : Int
  stopped : Bool
deriving DecidableEq, Repr

/-- The struct `model`, without its widgets (lists, table, forms, spinner,
help, text input) and its storage. -/
structure Model where
  activeTab : Nat
  showHelp : Bool
  width : Int
  height : Int
  uiState : Nat
  loadingStep : Int
  loadMsg : String
  showingForm : Bool
  activeFormType : Nat
  isAuthenticated : Bool
  authErrorMessage : String
  authState : Nat
  deviceCode : String
  deviceID : String
  authError : String
  pollTicker : Option Ticker
  verificationURI : String
  authPollInterval : Int
deriving DecidableEq, Repr

/-- What `Update` takes from the widgets and the key bindings: whether a key
matches `keys.Enter` and `keys.Quit`, the update of the form on show, the
handling of a key in `stateReady` (the model, and whether it quits), and the
update of the list or table of the gardens, beds and tasks tabs. -/
structure Widgets where
  isEnter : String → Bool
  isQuit : String → Bool
  formUpdate : Model → Msg → Model × Cmd
  readyKey : Model → String → Model × Bool
  tabUpdate : Model → Msg → Model × Cmd

/-- The function `initialModel`, for the drawn device id. -/
def initialModel (width height : Int) (instanceDeviceID : String) : Model :=
  { activeTab := dashboardTab, showHelp := false, width := width, height := height,
    uiState := stateAuth, loadingStep := 0, loadMsg := "Initializing Plantastic...",
    showingForm := false, activeFormType := 0, isAuthenticated := false,
    authErrorMessage := "", authState := 0, deviceCode := "",
    deviceID := instanceDeviceID, authError := "", pollTicker := none,
    verificationURI := "", authPollInterval := 5 * Second }

/-- The command `tick()`. -/
def tick : Cmd := .Tick Second .tickMsg

/-- The command `loadingTick()`. -/
def loadingTick : Cmd := .Tick (350 * Millisecond) .loadingTickMsg

/-- The call `m.pollTicker.Stop()` when the ticker is not nil. -/
def stopTicker (t : Option Ticker) : Option Ticker :=
  match t with
  | none => none
  | some t => some { t with stopped := true }

/-- The text `loadMsg` of a loading step, where the step sets one. -/
def loadingMessage (step : Int) (old : String) : String :=
  if step == 1 then "Connecting to garden database..."
  else if step == 2 then "Loading garden data..."
  else if step == 3 then "Loading bed information..."
  else if step == 4 then "Checking task schedules..."
  else if step == 5 then "Preparing user interface..."
  else old

/-- The tab-specific updates that end `Update`, and its final `tea.Batch`. -/
def updateTabs (w : Widgets) (m : Model) (msg : Msg) (cmds : List Cmd) : Model × Cmd :=
  if m.activeTab == 1 || m.activeTab == 2 || m.activeTab == 3 then
    ((w.tabUpdate m msg).1, .Batch (cmds ++ [(w.tabUpdate m msg).2]))
  else
    (m, .Batch cmds)

/-- The part of `Update` after the block of the authentication state: the form
on show, the switch on the message, the tab-specific updates. -/
def updateRest (w : Widgets) (m : Model) (msg : Msg) : Model × Cmd :=
  if m.showingForm && (m.activeFormType == 0 || m.activeFormType == 1 ||
      m.activeFormType == 2) then
    w.formUpdate m msg
  else
    match msg with
    | .KeyMsg key =>
      if m.uiState == stateSplash && w.isEnter key then
        ({ m with uiState := stateLoading }, .Batch [.spinnerTick, loadingTick])
      else if (m.uiState == stateSplash || m.uiState == stateLoading) && w.isQuit key then
        (m, .Quit)
      else if m.uiState == stateReady then
        if (w.readyKey m key).2 then ((w.readyKey m key).1, .Quit)
        else updateTabs w (w.readyKey m key).1 msg []
      else
        updateTabs w m msg []
    | .WindowSizeMsg width height =>
      updateTabs w { m with width := width, height := height } msg []
    | .loadingTickMsg =>
      if m.uiState == stateLoading then
        if m.loadingStep + 1 == 6 then
          ({ m with loadingStep := m.loadingStep + 1, uiState := stateReady }, tick)
        else
          updateTabs w
            { m with
              loadingStep := m.loadingStep + 1
              loadMsg := loadingMessage (m.loadingStep + 1) m.loadMsg }
            msg [loadingTick]
      else
        updateTabs w m msg []
    | .spinnerTickMsg =>
      if m.uiState == stateLoading then updateTabs w m msg [.spinnerTick]
      else updateTabs w m msg []
    | .tickMsg => updateTabs w m msg [tick]
    | _ => updateTabs w m msg []

/-- The function `model.Update`. -/
def Update (w : Widgets) (m : Model) (msg : Msg) : Model × Cmd :=
  if m.uiState == stateAuth then
    match msg with
    | .KeyMsg key =>
      if key == "q" || key == "Q" || key == "ctrl+c" then (m, .Quit)
      else updateRest w m msg
    | .tickMsg =>
      if m.authState == authStateNone then
        ({ m with authState := authStateWaitingForCode }, .requestDeviceCode m.deviceID)
      else
        (m, .spinnerTick)
    | .deviceCodeMsg code verificationURI interval _ =>
      let m := { m with deviceCode := code }
      let m := if verificationURI != "" then { m with verificationURI := verificationURI }
        else m
      let m := if interval > 0 then { m with authPollInterval := wrapInt64 (interval * Second) }
        else m
      let m := { m with authState := authStateWaitingForAuth }
      let m := { m with pollTicker := stopTicker m.pollTicker }
      let pollDuration := if m.authPollInterval < 2 * Second then 2 * Second
        else m.authPollInterval
      ({ m with pollTicker := some { period := pollDuration, stopped := false } },
        .Tick pollDuration .authPendingMsg)
    | .authPendingMsg => (m, .checkAuthStatus m.deviceCode)
    | .authSuccessMsg _ =>
      ({ m with
          pollTicker := stopTicker m.pollTicker
          isAuthenticated := true
          uiState := stateSplash },
        .Batch [.spinnerTick, loadingTick])
    | .errMsg error => ({ m with authError := error }, .nil)
    | _ => updateRest w m msg
  else
    updateRest w m msg

/-- The body of the status response the client decodes. -/
structure StatusBody where
  Status : String
  Token : String
  Error : String
deriving DecidableEq, Repr

/-- The outcome of the HTTP exchange of `checkAuthStatus`: `http.NewRequest`
fails, `client.Do` fails, or a response arrives with its status code, status
line, body and the outcome of `json.Unmarshal` on the body. -/
inductive HttpOutcome where
  | newRequestError (err : String)
  | doError (err : String)
  | response (StatusCode : Nat) (Status body : String) (decoded : Except String StatusBody)

/-- The message the command `m.checkAuthStatus()` returns, for the device code
the command holds and the outcome of its HTTP exchange. -/
def checkAuthStatus (deviceCode : String) (http : HttpOutcome) : Msg :=
  if deviceCode == "" then
    .errMsg "no device code to check status for"
  else
    match http with
    | .newRequestError err => .errMsg ("failed to create request: " ++ err)
    | .doError _ => .cmd (.Tick (2 * Second) .authPendingMsg)
    | .response StatusCode Status body decoded =>
      if StatusCode != 200 then
        .errMsg ("failed to check auth status, status: " ++ Status ++ ", body: " ++ body)
      else
        match decoded with
        | .error err => .errMsg ("failed to decode auth status response: " ++ err)
        | .ok result =>
          if result.Status == "activated" then
            if result.Token == "" then .errMsg "status is activated but token is missing"
            else .authSuccessMsg result.Token
          else if result.Status == "pending_activation" then
            .cmd (.Tick (2 * Second) .authPendingMsg)
          else if result.Status == "failed" then
            .errMsg ("authentication failed: " ++ result.Error)
          else
            .errMsg ("unknown authentication status: " ++ result.Status)

/-- Whether a command, once run, leads to a status check: the command
`checkAuthStatus` itself, a timer that delivers `authPendingMsg`, or a batch
with one of these. -/
def schedulesStatusCheck : Cmd → Bool
  | .checkAuthStatus _ => true
  | .Tick _ .authPendingMsg => true
  | .Batch cmds => anyScheduled cmds
  | _ => false
where
  /-- Whether one command of a list leads to a status check. -/
  anyScheduled : List Cmd → Bool
    | [] => false
    | c :: cs => schedulesStatusCheck c || anyScheduled cs

/-- The delays of the timers of a command that deliver `authPendingMsg`. -/
def pollDelays : Cmd → List Int
  | .Tick d .authPendingMsg => [d]
  | .Batch cmds => delaysOf cmds
  | _ => []
where
  /-- The delays of the timers of a list of commands. -/
  delaysOf : List Cmd → List Int
    | [] => []
    | c :: cs => pollDelays c ++ delaysOf cs

/-- Widgets that do nothing and key bindings that match no key. -/
def idleWidgets : Widgets :=
  { isEnter := fun _ => false, isQuit := fun _ => false,
    formUpdate := fun m _ => (m, .nil), readyKey := fun m _ => (m, false),
    tabUpdate := fun m _ => (m, .nil) }

/-- The client that waits for the activation of `PLANT-AB12CD`, with the
polling interval 5 seconds the server advised. -/
def waitingModel : Model :=
  { initialModel 80 24 "tui-1" with
    authState := authStateWaitingForAuth
    deviceCode := "PLANT-AB12CD"
    verificationURI := "/verify-device"
    pollTicker := some { period := 5 * Second, stopped := false } }

/-- The response `200 {"status": "pending_activation"}` of the server. -/
def pendingResponse : HttpOutcome :=
  .response 200 "200 OK" "\x7b\x22status\x22:\x22pending_activation\x22\x7d"
    (.ok { Status := "pending_activation", Token := "", Error := "" })

/-! ## Facts about the query -/

theorem foldl_pickFirst_some (l : List Device) (b : Device) :
    ∃ x, l.foldl pickFirst (some b) = some x ∧ (x = b ∨ x ∈ l) := by
  induction l generalizing b with
  | nil => exact ⟨b, rfl, Or.inl rfl⟩
  | cons a l ih =>
    simp only [List.foldl_cons, pickFirst]
    split
    · obtain ⟨x, hx, hmem⟩ := ih a
      refine ⟨x, hx, Or.inr ?_⟩
      rcases hmem with h | h
      · simp [h]
      · simp [h]
    · obtain ⟨x, hx, hmem⟩ := ih b
      refine ⟨x, hx, ?_⟩
      rcases hmem with h | h
      · exact Or.inl h
      · exact Or.inr (by simp [h])

theorem foldl_pickFirst_none (l : List Device) :
    (l.foldl pickFirst none = none ∧ l = []) ∨
      ∃ x, l.foldl pickFirst none = some x ∧ x ∈ l := by
  cases l with
  | nil => exact Or.inl ⟨rfl, rfl⟩
  | cons a l =>
    right
    obtain ⟨x, hx, hmem⟩ := foldl_pickFirst_some l a
    refine ⟨x, ?_, ?_⟩
    · simpa [List.foldl_cons, pickFirst] using hx
    · rcases hmem with h | h
      · simp [h]
      · simp [h]

/-- The query finds a row of the table with the user code asked for. -/
theorem firstByUserCode_ok {db : Store} {userCode : String} {r : Device}
    (h : firstByUserCode db userCode = .ok r) : r ∈ db ∧ r.UserCode = userCode := by
  unfold firstByUserCode at h
  rcases foldl_pickFirst_none (db.filter (fun r => r.UserCode == userCode)) with ⟨h0, _⟩ | ⟨x, hx, hmem⟩
  · rw [h0] at h; cases h
  · rw [hx] at h
    cases h
    simpa using hmem

/-- The query fails only with `ErrRecordNotFound`, and only when no row has
the user code. -/
theorem firstByUserCode_error {db : Store} {userCode : String} {e : GormError}
    (h : firstByUserCode db userCode = .error e) :
    e = .ErrRecordNotFound ∧ ∀ r ∈ db, r.UserCode ≠ userCode := by
  unfold firstByUserCode at h
  rcases foldl_pickFirst_none (db.filter (fun r => r.UserCode == userCode)) with ⟨h0, hnil⟩ | ⟨x, hx, _⟩
  · rw [h0] at h
    cases h
    refine ⟨rfl, fun r hr hc => ?_⟩
    have : r ∈ db.filter (fun r => r.UserCode == userCode) := by simp [hr, hc]
    rw [hnil] at this
    cases this
  · rw [hx] at h; cases h

/-- When no row has the user code the query reports `ErrRecordNotFound`. -/
theorem firstByUserCode_absent {db : Store} {userCode : String}
    (h : ∀ r ∈ db, r.UserCode ≠ userCode) :
    firstByUserCode db userCode = .error .ErrRecordNotFound := by
  cases hq : firstByUserCode db userCode with
  | error e => rw [(firstByUserCode_error hq).1]
  | ok r => exact absurd (firstByUserCode_ok hq).2 (h r (firstByUserCode_ok hq).1)

/-- Under the unique index the query finds the one row with the user code. -/
theorem firstByUserCode_of_mem {db : Store} {r : Device}
    (hu : UniqueUserCodes db) (hr : r ∈ db) :
    firstByUserCode db r.UserCode = .ok r := by
  cases hq : firstByUserCode db r.UserCode with
  | error e => exact absurd rfl ((firstByUserCode_error hq).2 r hr)
  | ok x =>
    obtain ⟨hx, hc⟩ := firstByUserCode_ok hq
    rw [List.inj_on_of_nodup_map hu hx hr hc]

/-- Two rows of a table with the unique index and the same user code are one. -/
theorem eq_of_userCode_eq {db : Store} {r x : Device}
    (hu : UniqueUserCodes db) (hr : r ∈ db) (hx : x ∈ db) (hc : x.UserCode = r.UserCode) :
    x = r :=
  List.inj_on_of_nodup_map hu hx hr hc

/-! ## Reading and validating -/

theorem GetTokenForUserCode_of_mem {db : Store} {r : Device} (now : Time)
    (hu : UniqueUserCodes db) (hr : r ∈ db) :
    GetTokenForUserCode db r.UserCode now = tokenResult (.ok r) now := by
  unfold GetTokenForUserCode
  rw [firstByUserCode_of_mem hu hr]

theorem ValidateUserCode_of_mem {db : Store} {r : Device} (now : Time)
    (hu : UniqueUserCodes db) (hr : r ∈ db) :
    ValidateUserCode db r.UserCode now = validateResult (.ok r) now := by
  unfold ValidateUserCode
  rw [firstByUserCode_of_mem hu hr]

theorem tokenResult_bound {r : Device} (now : Time) (ht : r.Token ≠ "") :
    tokenResult (.ok r) now = .ok r.Token := by
  simp [tokenResult, ht]

theorem tokenResult_pending {r : Device} {now : Time} (ht : r.Token = "")
    (hn : ¬ now > r.ExpiresAt) : tokenResult (.ok r) now = .error errPending := by
  simp [tokenResult, ht, errPending, not_lt.mp hn]

theorem tokenResult_expired {r : Device} {now : Time} (ht : r.Token = "")
    (hn : now > r.ExpiresAt) :
    tokenResult (.ok r) now = .error errExpiredNotActivated := by
  simp [tokenResult, ht, errExpiredNotActivated, hn]

/-- C1. In a table with the unique index on user codes, `GetTokenForUserCode`
gives the not-found error when no row has the user code, the stored token when
the row's token is set (expired or not), the pending outcome when the token is
empty and the time is not after `ExpiresAt`, and the expired error when the
token is empty and the time is after `ExpiresAt`; the three errors differ. -/
theorem GetTokenForUserCode_outcomes (db : Store) (userCode : String) (now : Time)
    (hu : UniqueUserCodes db) :
    ((∀ r ∈ db, r.UserCode ≠ userCode) →
        GetTokenForUserCode db userCode now = .error errNotFound) ∧
    (∀ r ∈ db, r.UserCode = userCode → r.Token ≠ "" →
        GetTokenForUserCode db userCode now = .ok r.Token) ∧
    (∀ r ∈ db, r.UserCode = userCode → r.Token = "" → ¬ now > r.ExpiresAt →
        GetTokenForUserCode db userCode now = .error errPending) ∧
    (∀ r ∈ db, r.UserCode = userCode → r.Token = "" → now > r.ExpiresAt →
        GetTokenForUserCode db userCode now = .error errExpiredNotActivated) ∧
    errNotFound ≠ errPending ∧ errNotFound ≠ errExpiredNotActivated ∧
      errPending ≠ errExpiredNotActivated := by
  refine ⟨?_, ?_, ?_, ?_, by decide, by decide, by decide⟩
  · intro h
    unfold GetTokenForUserCode
    rw [firstByUserCode_absent h]
    rfl
  · intro r hr hc ht
    subst hc
    rw [GetTokenForUserCode_of_mem now hu hr, tokenResult_bound now ht]
  · intro r hr hc ht hn
    subst hc
    rw [GetTokenForUserCode_of_mem now hu hr, tokenResult_pending ht hn]
  · intro r hr hc ht hn
    subst hc
    rw [GetTokenForUserCode_of_mem now hu hr, tokenResult_expired ht hn]

/-- At instant 1000, after its expiry at 900, the activated row still yields
its token. -/
theorem GetTokenForUserCode_outcomes_witness :
    UniqueUserCodes [activatedRow] ∧
      GetTokenForUserCode [activatedRow] "PLANT-AB12CD" 1000 = .ok "tok-X" :=
  ⟨by decide,
    (GetTokenForUserCode_outcomes [activatedRow] "PLANT-AB12CD" 1000 (by decide)).2.1
      activatedRow (by decide) rfl (by decide)⟩

/-- What a successful validation says of the row it returns. -/
theorem ValidateUserCode_ok {db : Store} {userCode : String} {now : Time} {r : Device}
    (h : ValidateUserCode db userCode now = .ok r) :
    firstByUserCode db userCode = .ok r ∧ r.Token = "" ∧ ¬ now > r.ExpiresAt := by
  unfold ValidateUserCode at h
  cases hq : firstByUserCode db userCode with
  | error e =>
    rw [hq] at h
    cases e <;> simp [validateResult] at h
  | ok x =>
    rw [hq] at h
    simp only [validateResult] at h
    split at h
    · cases h
    · split at h
      · cases h
      · cases h
        rename_i hn ht
        exact ⟨rfl, by simpa using ht, hn⟩

theorem validateResult_expired {r : Device} {now : Time} (hn : now > r.ExpiresAt) :
    validateResult (.ok r) now = .error errExpired := by
  simp [validateResult, hn, errExpired]

theorem validateResult_activated {r : Device} {now : Time} (ht : r.Token ≠ "")
    (hn : ¬ now > r.ExpiresAt) :
    validateResult (.ok r) now = .error errAlreadyActivated := by
  simp [validateResult, hn, ht, errAlreadyActivated]

theorem validateResult_issued {r : Device} {now : Time} (ht : r.Token = "")
    (hn : ¬ now > r.ExpiresAt) : validateResult (.ok r) now = .ok r := by
  simp [validateResult, hn, ht]

/-- C10. For rows whose token is empty, in a table with the unique index on
user codes: `ValidateUserCode` gives the not-found error when no row has the
user code, the expired error when the time is after `ExpiresAt`, and the row
itself otherwise; whenever it succeeds, the row it returns is in the table,
has the user code, an empty token, and is not expired. -/
theorem ValidateUserCode_unbound (db : Store) (userCode : String) (now : Time)
    (hu : UniqueUserCodes db) :
    ((∀ r ∈ db, r.UserCode ≠ userCode) →
        ValidateUserCode db userCode now = .error errNotFound) ∧
    (∀ r ∈ db, r.UserCode = userCode → r.Token = "" → now > r.ExpiresAt →
        ValidateUserCode db userCode now = .error errExpired) ∧
    (∀ r ∈ db, r.UserCode = userCode → r.Token = "" → ¬ now > r.ExpiresAt →
        ValidateUserCode db userCode now = .ok r) ∧
    (∀ r, ValidateUserCode db userCode now = .ok r →
        r ∈ db ∧ r.UserCode = userCode ∧ r.Token = "" ∧ ¬ now > r.ExpiresAt) := by
  refine ⟨?_, ?_, ?_, ?_⟩
  · intro h
    unfold ValidateUserCode
    rw [firstByUserCode_absent h]
    rfl
  · intro r hr hc _ hn
    subst hc
    rw [ValidateUserCode_of_mem now hu hr, validateResult_expired hn]
  · intro r hr hc ht hn
    subst hc
    rw [ValidateUserCode_of_mem now hu hr, validateResult_issued ht hn]
  · intro r h
    obtain ⟨hq, ht, hn⟩ := ValidateUserCode_ok h
    exact ⟨(firstByUserCode_ok hq).1, (firstByUserCode_ok hq).2, ht, hn⟩

/-- At instant 900, the last live instant of `issuedRow`, validation returns
the row. -/
theorem ValidateUserCode_unbound_witness :
    UniqueUserCodes [issuedRow] ∧
      ValidateUserCode [issuedRow] "PLANT-AB12CD" 900 = .ok issuedRow :=
  ⟨by decide,
    (ValidateUserCode_unbound [issuedRow] "PLANT-AB12CD" 900 (by decide)).2.2.1
      issuedRow (by decide) rfl rfl (by decide)⟩

/-! ## The update and `SetTokenForUserCode` -/

/-- The update leaves the user codes of the table as they are. -/
theorem updateToken_userCodes (db : Store) (model : Device) (userCode token : String)
    (now : Time) :
    (updateToken db model userCode token now).1.map Device.UserCode =
      db.map Device.UserCode := by
  simp only [updateToken, List.map_map]
  apply List.map_congr_left
  intro r _
  simp only [Function.comp]
  split <;> rfl

theorem updateToken_unique {db : Store} (model : Device) (userCode token : String)
    (now : Time) (hu : UniqueUserCodes db) :
    UniqueUserCodes (updateToken db model userCode token now).1 := by
  unfold UniqueUserCodes
  rw [updateToken_userCodes]
  exact hu

/-- A row with another user code is not touched by the update. -/
theorem updateToken_other {db : Store} {x : Device} (model : Device)
    (userCode token : String) (now : Time) (hx : x ∈ db) (hc : x.UserCode ≠ userCode) :
    x ∈ (updateToken db model userCode token now).1 := by
  simp only [updateToken, List.mem_map]
  exact ⟨x, hx, by simp [updateMatches, hc]⟩

/-- A row the `WHERE` clause selects is rewritten with the token. -/
theorem updateToken_hit {db : Store} {x : Device} (model : Device)
    (userCode token : String) (now : Time) (hx : x ∈ db)
    (hm : updateMatches model userCode x = true) :
    { x with Token := token, UpdatedAt := now } ∈
      (updateToken db model userCode token now).1 := by
  simp only [updateToken, List.mem_map]
  exact ⟨x, hx, by simp [hm]⟩

/-- A row the query found is selected by the update built from it. -/
theorem updateMatches_self (r : Device) : updateMatches r r.UserCode r = true := by
  simp [updateMatches]

/-- Under the unique index, the rows with the user code of `r` are `r` alone. -/
theorem filter_userCode_eq {db : Store} {r : Device} (hu : UniqueUserCodes db)
    (hr : r ∈ db) : db.filter (fun x => x.UserCode == r.UserCode) = [r] := by
  induction db with
  | nil => cases hr
  | cons a l ih =>
    have hnd : a.UserCode ∉ l.map Device.UserCode ∧ (l.map Device.UserCode).Nodup := by
      simpa [UniqueUserCodes] using hu
    rcases List.mem_cons.mp hr with h | h
    · subst h
      have hnone : l.filter (fun x => x.UserCode == r.UserCode) = [] := by
        rw [List.filter_eq_nil_iff]
        intro x hx hc
        exact hnd.1 (List.mem_map.mpr ⟨x, hx, by simpa using hc⟩)
      simp [List.filter_cons, hnone]
    · have hne : a.UserCode ≠ r.UserCode := fun hc =>
        hnd.1 (List.mem_map.mpr ⟨r, h, hc.symm⟩)
      simp [List.filter_cons, hne, ih hnd.2 h]

/-- Under the unique index, the update built from a row of the table selects
that row and no other. -/
theorem filter_updateMatches {db : Store} {r : Device} (hu : UniqueUserCodes db)
    (hr : r ∈ db) : db.filter (updateMatches r r.UserCode) = [r] := by
  rw [← filter_userCode_eq hu hr]
  apply List.filter_congr
  intro x hx
  by_cases hc : x.UserCode = r.UserCode
  · rw [eq_of_userCode_eq hu hr hx hc]
    simp [updateMatches]
  · simp [updateMatches, hc]

/-- The two ways `SetTokenForUserCode` ends when its arguments are not empty:
it fails with the wrapped validation error and the table as it was, or it
succeeds with the table the update built from the validated row gives. -/
theorem SetTokenForUserCode_cases (db : Store) (userCode token : String) (now : Time)
    (hc : userCode ≠ "") (ht : token ≠ "") :
    (∃ err, ValidateUserCode db userCode now = .error err ∧
        SetTokenForUserCode db userCode token now = (.error (cannotSet err), db)) ∨
    (∃ r, ValidateUserCode db userCode now = .ok r ∧
        SetTokenForUserCode db userCode token now =
          (.ok (), (updateToken db r userCode token now).1)) := by
  cases hv : ValidateUserCode db userCode now with
  | error err =>
    left
    exact ⟨err, rfl, by simp [SetTokenForUserCode, hc, ht, hv, cannotSet]⟩
  | ok r =>
    right
    refine ⟨r, rfl, ?_⟩
    obtain ⟨hq, _, _⟩ := ValidateUserCode_ok hv
    obtain ⟨hr, hcode⟩ := firstByUserCode_ok hq
    have hpos : (db.filter (updateMatches r userCode)).length ≠ 0 := by
      have hmem : r ∈ db.filter (updateMatches r userCode) := by
        rw [List.mem_filter]
        exact ⟨hr, by rw [← hcode]; exact updateMatches_self r⟩
      intro h0
      rw [List.length_eq_zero] at h0
      rw [h0] at hmem
      cases hmem
    simp [SetTokenForUserCode, hc, ht, hv, updateToken, afterUpdate, hpos]

/-- A call with an empty user code or token fails before touching the table. -/
theorem SetTokenForUserCode_empty (db : Store) (userCode token : String) (now : Time)
    (h : userCode = "" ∨ token = "") :
    SetTokenForUserCode db userCode token now =
      (.error "userCode and token cannot be empty", db) := by
  rcases h with h | h <;> simp [SetTokenForUserCode, h]

/-- A call that does not succeed leaves the table as it was. -/
theorem SetTokenForUserCode_fail {db : Store} {userCode token : String} {now : Time}
    (h : (SetTokenForUserCode db userCode token now).1 ≠ .ok ()) :
    (SetTokenForUserCode db userCode token now).2 = db := by
  by_cases he : userCode = "" ∨ token = ""
  · rw [SetTokenForUserCode_empty db userCode token now he]
  · push_neg at he
    rcases SetTokenForUserCode_cases db userCode token now he.1 he.2 with
      ⟨err, _, hs⟩ | ⟨r, _, hs⟩
    · rw [hs]
    · rw [hs] at h
      exact absurd rfl h

/-- C2. For a row of the table in the Issued state (token empty, the time not
after `ExpiresAt`) with a non-empty user code, in a table with the unique index
on user codes, and a non-empty token `t`: `SetTokenForUserCode` succeeds, and
`GetTokenForUserCode` on the table it leaves returns exactly `t`, at any time. -/
theorem SetTokenForUserCode_issued (db : Store) (r : Device) (t : String)
    (now later : Time) (hu : UniqueUserCodes db) (hr : r ∈ db) (hcode : r.UserCode ≠ "")
    (hempty : r.Token = "") (hlive : ¬ now > r.ExpiresAt) (ht : t ≠ "") :
    (SetTokenForUserCode db r.UserCode t now).1 = .ok () ∧
      GetTokenForUserCode (SetTokenForUserCode db r.UserCode t now).2 r.UserCode later =
        .ok t := by
  have hv : ValidateUserCode db r.UserCode now = .ok r := by
    rw [ValidateUserCode_of_mem now hu hr, validateResult_issued hempty hlive]
  rcases SetTokenForUserCode_cases db r.UserCode t now hcode ht with
    ⟨err, hv', _⟩ | ⟨x, hv', hs⟩
  · rw [hv] at hv'; cases hv'
  · rw [hv] at hv'
    cases hv'
    rw [hs]
    refine ⟨rfl, ?_⟩
    have hmem := updateToken_hit r r.UserCode t now hr (updateMatches_self r)
    have hu' := updateToken_unique r r.UserCode t now hu
    have := GetTokenForUserCode_of_mem later hu' hmem
    simp only at this
    rw [this]
    exact tokenResult_bound later ht

/-- Scenario B, first half: binding `tok-X` to the issued row at instant 5
succeeds and a read at instant 6 returns `tok-X`. -/
theorem SetTokenForUserCode_issued_witness :
    (SetTokenForUserCode [issuedRow] "PLANT-AB12CD" "tok-X" 5).1 = .ok () ∧
      GetTokenForUserCode (SetTokenForUserCode [issuedRow] "PLANT-AB12CD" "tok-X" 5).2
        "PLANT-AB12CD" 6 = .ok "tok-X" :=
  SetTokenForUserCode_issued [issuedRow] issuedRow "tok-X" 5 6 (by decide) (by decide)
    (by decide) rfl (by decide) (by decide)

/-- A bind of a row whose token is set fails and leaves the table as it was. -/
theorem SetTokenForUserCode_of_bound {db : Store} {r : Device} (t : String) (now : Time)
    (hu : UniqueUserCodes db) (hr : r ∈ db) (hset : r.Token ≠ "") :
    SetTokenForUserCode db r.UserCode t now =
      (.error (activatedBindError r t now), db) := by
  by_cases he : r.UserCode = "" ∨ t = ""
  · rw [SetTokenForUserCode_empty db r.UserCode t now he]
    simp [activatedBindError, he]
  · have he' := he
    push_neg at he'
    have hv := ValidateUserCode_of_mem now hu hr
    rcases SetTokenForUserCode_cases db r.UserCode t now he'.1 he'.2 with
      ⟨err, hv', hs⟩ | ⟨x, hv', _⟩
    · rw [hs]
      rw [hv] at hv'
      by_cases hn : now > r.ExpiresAt
      · rw [validateResult_expired hn] at hv'
        cases hv'
        simp [activatedBindError, he, hn]
      · rw [validateResult_activated hset hn] at hv'
        cases hv'
        simp [activatedBindError, he, hn]
    · have hq := (ValidateUserCode_ok hv').1
      rw [firstByUserCode_of_mem hu hr] at hq
      cases hq
      exact absurd (ValidateUserCode_ok hv').2.1 hset

/-! ## Sequences of calls: what they keep -/

/-- The insert is refused, leaving the table as it was, or appends the row,
whose user code was not in use. -/
theorem create_cases (db : Store) (d : Device) :
    (∃ e, create db d = (db, { Error := some e, RowsAffected := 0 })) ∨
      (d.UserCode ∉ db.map Device.UserCode ∧
        create db d = (db ++ [d], { Error := none, RowsAffected := 1 })) := by
  unfold create
  split
  · exact Or.inl ⟨_, rfl⟩
  · split
    · exact Or.inl ⟨_, rfl⟩
    · split
      · exact Or.inl ⟨_, rfl⟩
      · rename_i hcode _
        exact Or.inr ⟨hcode, rfl⟩

/-- A successful `NewCode` appends one unbound row with the returned code,
expiring `UserCodeDuration` after the call, and the code was not in use. -/
theorem NewCode_ok {db db' : Store} {deviceID u idDraw code : String} {now : Time}
    (h : NewCode db deviceID u idDraw now = (.ok code, db')) :
    code = userCodeOf u ∧ code ∉ db.map Device.UserCode ∧
      ∃ x : Device, db' = db ++ [x] ∧ x.UserCode = code ∧ x.DeviceID = deviceID ∧
        x.Token = "" ∧ x.ExpiresAt = now + UserCodeDuration := by
  unfold NewCode at h
  split at h
  · cases h
  · simp only [BeforeCreate, beq_self_eq_true, if_true] at h
    rcases create_cases db
      { ID := idDraw, UserCode := userCodeOf u, DeviceID := deviceID, Token := "",
        CreatedAt := now, UpdatedAt := now, ExpiresAt := now + UserCodeDuration,
        LastUsedAt := none } with ⟨e, he⟩ | ⟨hx, he⟩
    · rw [he] at h
      cases h
    · rw [he] at h
      simp only [Prod.mk.injEq, Except.ok.injEq] at h
      obtain ⟨h1, h2⟩ := h
      subst h1
      exact ⟨rfl, hx, _, h2.symm, rfl, rfl, rfl, rfl⟩

/-- The function `NewCode` leaves the table as it was or appends one row with
a user code that was not in use. -/
theorem NewCode_store (db : Store) (deviceID u idDraw : String) (now : Time) :
    (NewCode db deviceID u idDraw now).2 = db ∨
      ∃ x : Device, x.UserCode ∉ db.map Device.UserCode ∧
        (NewCode db deviceID u idDraw now).2 = db ++ [x] := by
  unfold NewCode
  split
  · exact Or.inl rfl
  · simp only [BeforeCreate, beq_self_eq_true, if_true]
    rcases create_cases db
      { ID := idDraw, UserCode := userCodeOf u, DeviceID := deviceID, Token := "",
        CreatedAt := now, UpdatedAt := now, ExpiresAt := now + UserCodeDuration,
        LastUsedAt := none } with ⟨e, he⟩ | ⟨hx, he⟩
    · rw [he]
      exact Or.inl rfl
    · rw [he]
      exact Or.inr ⟨_, hx, rfl⟩

theorem unique_append {db : Store} {x : Device} (hu : UniqueUserCodes db)
    (hx : x.UserCode ∉ db.map Device.UserCode) : UniqueUserCodes (db ++ [x]) := by
  unfold UniqueUserCodes at *
  rw [List.map_append, List.nodup_append]
  refine ⟨hu, by simp, ?_⟩
  intro a ha hb
  simp only [List.map_cons, List.map_nil, List.mem_singleton] at hb
  subst hb
  exact hx ha

/-- One call keeps the unique index, and keeps a row as it is unless the call
is a `SetTokenForUserCode` on that row's user code that succeeds. -/
theorem step_keeps {db : Store} {r : Device} (now : Time) (op : Op)
    (hu : UniqueUserCodes db) (hr : r ∈ db)
    (hfail : isBindOf r.UserCode db now op = false) :
    UniqueUserCodes (step db now op) ∧ r ∈ step db now op := by
  cases op with
  | NewCode deviceID u idDraw =>
    simp only [step]
    rcases NewCode_store db deviceID u idDraw now with h | ⟨x, hx, h⟩
    · rw [h]; exact ⟨hu, hr⟩
    · rw [h]; exact ⟨unique_append hu hx, List.mem_append_left _ hr⟩
  | ValidateUserCode c => exact ⟨hu, hr⟩
  | GetTokenForUserCode c => exact ⟨hu, hr⟩
  | SetTokenForUserCode c t =>
    simp only [step]
    by_cases hok : (SetTokenForUserCode db c t now).1 = .ok ()
    · have hne : c ≠ r.UserCode := by
        intro hc
        subst hc
        simp [isBindOf, hok] at hfail
      have hargs : c ≠ "" ∧ t ≠ "" := by
        by_contra hcon
        have he : c = "" ∨ t = "" := by
          by_cases h1 : c = ""
          · exact Or.inl h1
          · exact Or.inr (by_contra fun h2 => hcon ⟨h1, h2⟩)
        rw [SetTokenForUserCode_empty db c t now he] at hok
        cases hok
      rcases SetTokenForUserCode_cases db c t now hargs.1 hargs.2 with
        ⟨err, _, hs⟩ | ⟨m, _, hs⟩
      · rw [hs] at hok; cases hok
      · rw [hs]
        exact ⟨updateToken_unique m c t now hu,
          updateToken_other m c t now hr (fun h => hne h.symm)⟩
    · rw [SetTokenForUserCode_fail hok]
      exact ⟨hu, hr⟩

/-- A sequence of calls in which no `SetTokenForUserCode` on the user code of
a row succeeds keeps the unique index and the row. -/
theorem run_keeps {r : Device} (trace : List (Time × Op)) :
    ∀ {db : Store}, UniqueUserCodes db → r ∈ db →
      bindSucceeds r.UserCode db trace = false →
      UniqueUserCodes (run db trace) ∧ r ∈ run db trace := by
  induction trace with
  | nil => intro db hu hr _; exact ⟨hu, hr⟩
  | cons a rest ih =>
    intro db hu hr hb
    obtain ⟨now, op⟩ := a
    simp only [bindSucceeds, Bool.or_eq_false_iff] at hb
    obtain ⟨hu', hr'⟩ := step_keeps now op hu hr hb.1
    exact ih hu' hr' hb.2

/-! ## The tables the manager builds -/

/-- A generated user code is not empty: it starts with `PLANT-`. -/
theorem userCodeOf_ne_empty (u : String) : userCodeOf u ≠ "" := by
  intro h
  have hd : (userCodeOf u).data.head? = some 'P' := rfl
  rw [h] at hd
  revert hd
  decide

/-- The user codes of the table after `NewCode`: those before, and at most the
generated one in addition, which was not in use. -/
theorem NewCode_userCodes (db : Store) (deviceID u idDraw : String) (now : Time) :
    (NewCode db deviceID u idDraw now).2.map Device.UserCode = db.map Device.UserCode ∨
      (userCodeOf u ∉ db.map Device.UserCode ∧
        (NewCode db deviceID u idDraw now).2.map Device.UserCode =
          db.map Device.UserCode ++ [userCodeOf u]) := by
  unfold NewCode
  split
  · exact Or.inl rfl
  · simp only [BeforeCreate, beq_self_eq_true, if_true]
    rcases create_cases db
      { ID := idDraw, UserCode := userCodeOf u, DeviceID := deviceID, Token := "",
        CreatedAt := now, UpdatedAt := now, ExpiresAt := now + UserCodeDuration,
        LastUsedAt := none } with ⟨e, he⟩ | ⟨hx, he⟩
    · rw [he]
      exact Or.inl rfl
    · rw [he]
      exact Or.inr ⟨hx, by simp⟩

/-- The function `SetTokenForUserCode` leaves the user codes of the table as
they are. -/
theorem SetTokenForUserCode_userCodes (db : Store) (userCode token : String) (now : Time) :
    (SetTokenForUserCode db userCode token now).2.map Device.UserCode =
      db.map Device.UserCode := by
  by_cases he : userCode = "" ∨ token = ""
  · rw [SetTokenForUserCode_empty db userCode token now he]
  · push_neg at he
    rcases SetTokenForUserCode_cases db userCode token now he.1 he.2 with
      ⟨err, _, hs⟩ | ⟨r, _, hs⟩
    · rw [hs]
    · rw [hs]
      exact updateToken_userCodes db r userCode token now

/-- One call keeps the unique index and keeps the empty user code out. -/
theorem step_invariant {db : Store} (now : Time) (op : Op) (hu : UniqueUserCodes db)
    (hne : "" ∉ db.map Device.UserCode) :
    UniqueUserCodes (step db now op) ∧ "" ∉ (step db now op).map Device.UserCode := by
  cases op with
  | NewCode deviceID u idDraw =>
    simp only [step, UniqueUserCodes]
    rcases NewCode_userCodes db deviceID u idDraw now with h | ⟨hx, h⟩
    · rw [h]; exact ⟨hu, hne⟩
    · rw [h]
      refine ⟨?_, ?_⟩
      · rw [List.nodup_append]
        refine ⟨hu, by simp, ?_⟩
        intro a ha hb
        simp only [List.mem_singleton] at hb
        subst hb
        exact hx ha
      · simp only [List.mem_append, List.mem_singleton, not_or]
        exact ⟨hne, fun h => userCodeOf_ne_empty u h.symm⟩
  | ValidateUserCode c => exact ⟨hu, hne⟩
  | GetTokenForUserCode c => exact ⟨hu, hne⟩
  | SetTokenForUserCode c t =>
    simp only [step, UniqueUserCodes]
    rw [SetTokenForUserCode_userCodes]
    exact ⟨hu, hne⟩

/-- Every table the manager builds from the empty table has the unique index
on user codes and no empty user code: the hypotheses of the theorems below
hold of every such table. -/
theorem run_invariant (trace : List (Time × Op)) :
    ∀ {db : Store}, UniqueUserCodes db → "" ∉ db.map Device.UserCode →
      UniqueUserCodes (run db trace) ∧ ∀ r ∈ run db trace, r.UserCode ≠ "" := by
  induction trace with
  | nil =>
    intro db hu hne
    exact ⟨hu, fun r hr h => hne (List.mem_map.mpr ⟨r, hr, h⟩)⟩
  | cons a rest ih =>
    intro db hu hne
    obtain ⟨now, op⟩ := a
    obtain ⟨hu', hne'⟩ := step_invariant now op hu hne
    exact ih hu' hne'

theorem run_nil_invariant (trace : List (Time × Op)) :
    UniqueUserCodes (run [] trace) ∧ ∀ r ∈ run [] trace, r.UserCode ≠ "" :=
  run_invariant trace (by decide) (by simp)

/-- A row past its expiry cannot be bound. -/
theorem SetTokenForUserCode_expired {db : Store} {r : Device} (t : String) {now : Time}
    (hu : UniqueUserCodes db) (hr : r ∈ db) (hexp : now > r.ExpiresAt) :
    (r.UserCode ≠ "" → t ≠ "" →
        SetTokenForUserCode db r.UserCode t now = (.error (cannotSet errExpired), db)) ∧
      (SetTokenForUserCode db r.UserCode t now).1 ≠ .ok () := by
  have hv : ValidateUserCode db r.UserCode now = .error errExpired := by
    rw [ValidateUserCode_of_mem now hu hr, validateResult_expired hexp]
  have key : r.UserCode ≠ "" → t ≠ "" →
      SetTokenForUserCode db r.UserCode t now = (.error (cannotSet errExpired), db) := by
    intro hc ht
    rcases SetTokenForUserCode_cases db r.UserCode t now hc ht with
      ⟨err, hv', hs⟩ | ⟨x, hv', _⟩
    · rw [hv] at hv'
      cases hv'
      exact hs
    · rw [hv] at hv'
      cases hv'
  refine ⟨key, ?_⟩
  by_cases he : r.UserCode = "" ∨ t = ""
  · rw [SetTokenForUserCode_empty db r.UserCode t now he]
    simp
  · push_neg at he
    rw [key he.1 he.2]
    simp

/-- No bind of a row's user code succeeds in a sequence of calls all made at
instants where a bind of that row is bound to fail. -/
theorem bindSucceeds_false {r : Device} (P : Time → Prop)
    (hP : ∀ (db : Store) (now : Time) (t : String), UniqueUserCodes db → r ∈ db → P now →
      (SetTokenForUserCode db r.UserCode t now).1 ≠ .ok ())
    (trace : List (Time × Op)) :
    ∀ {db : Store}, UniqueUserCodes db → r ∈ db → (∀ a ∈ trace, P a.1) →
      bindSucceeds r.UserCode db trace = false := by
  induction trace with
  | nil => intro db _ _ _; rfl
  | cons a rest ih =>
    intro db hu hr hall
    obtain ⟨now, op⟩ := a
    have hnow : P now := hall (now, op) (List.mem_cons_self _ _)
    have h1 : isBindOf r.UserCode db now op = false := by
      cases op with
      | SetTokenForUserCode c t =>
        by_cases hc : c = r.UserCode
        · subst hc
          simp [isBindOf, hP db now t hu hr hnow]
        · simp [isBindOf, hc]
      | NewCode _ _ _ => rfl
      | ValidateUserCode _ => rfl
      | GetTokenForUserCode _ => rfl
    obtain ⟨hu', hr'⟩ := step_keeps now op hu hr h1
    simp only [bindSucceeds, h1, Bool.false_or]
    exact ih hu' hr' (fun a ha => hall a (List.mem_cons_of_mem _ ha))

/-- C4. Hard expiry. For a row of the table with a non-empty user code and an
empty token, in a table with the unique index on user codes, and a time after
the row's `ExpiresAt`: `SetTokenForUserCode` with any non-empty token fails
with the expired error and leaves the table unchanged, `GetTokenForUserCode`
gives the expired error, and after any sequence of manager calls made under a
clock that does not go back, the row is still in the table with its empty
token, no row with its user code holds a token, and reads still give the
expired error. -/
theorem hard_expiry (db : Store) (r : Device) (now : Time) (hu : UniqueUserCodes db)
    (hr : r ∈ db) (hcode : r.UserCode ≠ "") (hempty : r.Token = "")
    (hexp : now > r.ExpiresAt) :
    (∀ t, t ≠ "" →
        SetTokenForUserCode db r.UserCode t now = (.error (cannotSet errExpired), db)) ∧
      GetTokenForUserCode db r.UserCode now = .error errExpiredNotActivated ∧
      ∀ trace : List (Time × Op), List.Chain (· ≤ ·) now (trace.map Prod.fst) →
        r ∈ run db trace ∧
          (∀ x ∈ run db trace, x.UserCode = r.UserCode → x.Token = "") ∧
          ∀ later, later > r.ExpiresAt →
            GetTokenForUserCode (run db trace) r.UserCode later =
              .error errExpiredNotActivated := by
  refine ⟨fun t ht => (SetTokenForUserCode_expired t hu hr hexp).1 hcode ht, ?_, ?_⟩
  · rw [GetTokenForUserCode_of_mem now hu hr, tokenResult_expired hempty hexp]
  · intro trace hclock
    have hall : ∀ a ∈ trace, a.1 > r.ExpiresAt := by
      intro a ha
      have hle : now ≤ a.1 := hclock.rel (List.mem_map.mpr ⟨a, ha, rfl⟩)
      exact lt_of_lt_of_le hexp hle
    have hnb := bindSucceeds_false (fun n => n > r.ExpiresAt)
      (fun db' n t hu' hr' hn => (SetTokenForUserCode_expired t hu' hr' hn).2)
      trace hu hr hall
    obtain ⟨hu', hr'⟩ := run_keeps trace hu hr hnb
    refine ⟨hr', ?_, ?_⟩
    · intro x hx hc
      rw [eq_of_userCode_eq hu' hr' hx hc]
      exact hempty
    · intro later hl
      rw [GetTokenForUserCode_of_mem later hu' hr', tokenResult_expired hempty hl]

/-- Scenario C, with instants in seconds: the row expires at 900; at 901 a
bind of `tok-X` fails with the expired error and leaves the table as it was. -/
theorem hard_expiry_witness :
    SetTokenForUserCode [issuedRow] "PLANT-AB12CD" "tok-X" 901 =
      (.error (cannotSet errExpired), [issuedRow]) :=
  (hard_expiry [issuedRow] issuedRow 901 (by decide) (by decide) (by decide) rfl
    (by decide)).1 "tok-X" (by decide)

/-- C6. Pending until bound. For a code returned by a successful `NewCode` at
instant `now` on a table with the unique index on user codes: after any
sequence of manager calls in which no `SetTokenForUserCode` on that code
succeeds, `GetTokenForUserCode` gives the pending outcome at every time not
after `now + UserCodeDuration`, the row's `ExpiresAt`. -/
theorem pending_until_bound (db db' : Store) (deviceID u idDraw code : String)
    (now : Time) (hu : UniqueUserCodes db)
    (hnew : NewCode db deviceID u idDraw now = (.ok code, db'))
    (trace : List (Time × Op)) (hnb : bindSucceeds code db' trace = false)
    (later : Time) (hlive : ¬ later > now + UserCodeDuration) :
    GetTokenForUserCode (run db' trace) code later = .error errPending := by
  obtain ⟨_, hfresh, x, hdb, hc, _, hempty, hexp⟩ := NewCode_ok hnew
  subst hc
  have hu0 : UniqueUserCodes db' := by
    rw [hdb]
    exact unique_append hu hfresh
  have hx0 : x ∈ db' := by
    rw [hdb]
    simp
  obtain ⟨hu', hx'⟩ := run_keeps trace hu0 hx0 hnb
  rw [GetTokenForUserCode_of_mem later hu' hx']
  exact tokenResult_pending hempty (by rw [hexp]; exact hlive)

/-- Scenario A and on: the code issued for `dev-1` at instant 0 reads as
pending at the last instant of its fifteen minutes, after a read, a second
issue, a bind of an unknown code and a bind with an empty token. -/
theorem pending_until_bound_witness :
    GetTokenForUserCode
      (run (NewCode [] "dev-1" "ab12cd34-0000" "id-1" 0).2
        [(10, .GetTokenForUserCode "PLANT-AB12CD"),
         (20, .NewCode "dev-2" "0f3a9c77-1111" "id-2"),
         (30, .SetTokenForUserCode "PLANT-ZZZZZZ" "tok-Z"),
         (40, .SetTokenForUserCode "PLANT-AB12CD" "")])
      "PLANT-AB12CD" 900000000000 = .error errPending :=
  pending_until_bound [] _ "dev-1" "ab12cd34-0000" "id-1" "PLANT-AB12CD" 0 (by decide)
    (by decide) _ (by decide) 900000000000 (by decide)

/-! ## Calls that overlap -/

/-- A bind of a row in the Issued state succeeds and leaves the table the
update built from that row gives. -/
theorem SetTokenForUserCode_of_issued {db : Store} {r : Device} {t : String} {now : Time}
    (hu : UniqueUserCodes db) (hr : r ∈ db) (hcode : r.UserCode ≠ "")
    (hempty : r.Token = "") (hlive : ¬ now > r.ExpiresAt) (ht : t ≠ "") :
    SetTokenForUserCode db r.UserCode t now =
      (.ok (), (updateToken db r r.UserCode t now).1) := by
  have hv : ValidateUserCode db r.UserCode now = .ok r := by
    rw [ValidateUserCode_of_mem now hu hr, validateResult_issued hempty hlive]
  rcases SetTokenForUserCode_cases db r.UserCode t now hcode ht with
    ⟨err, hv', _⟩ | ⟨x, hv', hs⟩
  · rw [hv] at hv'; cases hv'
  · rw [hv] at hv'
    cases hv'
    exact hs

/-- Two round trips of one call with no other call in between are the function
`SetTokenForUserCode`. -/
theorem advance_advance (db : Store) (userCode token : String) (now : Time) :
    advance (advance db now ⟨userCode, token, .start⟩).2 now
        (advance db now ⟨userCode, token, .start⟩).1 =
      (⟨userCode, token, .done (SetTokenForUserCode db userCode token now).1⟩,
        (SetTokenForUserCode db userCode token now).2) := by
  by_cases he : (userCode == "" || token == "") = true
  · have h1 : advance db now ⟨userCode, token, .start⟩ =
        (⟨userCode, token, .done (.error "userCode and token cannot be empty")⟩, db) := by
      simp only [advance, he, if_true]
    rw [h1]
    simp only [advance, SetTokenForUserCode, he, if_true]
  · cases hv : ValidateUserCode db userCode now with
    | error err =>
      have h1 : advance db now ⟨userCode, token, .start⟩ =
          (⟨userCode, token, .done (.error ("cannot set token: " ++ err))⟩, db) := by
        simp only [advance, he, hv]
        rfl
      rw [h1]
      simp only [advance, SetTokenForUserCode, he, hv]
      rfl
    | ok deviceAuth =>
      have h1 : advance db now ⟨userCode, token, .start⟩ =
          (⟨userCode, token, .validated deviceAuth⟩, db) := by
        simp only [advance, he, hv]
        rfl
      rw [h1]
      simp only [advance, SetTokenForUserCode, he, hv]
      rfl

/-- An update that selects no row leaves the table as it was. -/
theorem updateToken_none {db : Store} {model : Device} {userCode token : String}
    {now : Time} (h0 : (updateToken db model userCode token now).2.RowsAffected = 0) :
    (updateToken db model userCode token now).1 = db := by
  simp only [updateToken, List.length_eq_zero, List.filter_eq_nil_iff] at h0
  simp only [updateToken]
  conv_rhs => rw [← List.map_id db]
  apply List.map_congr_left
  intro x hx
  simp [h0 x hx]

/-- The error for an update without effect starts with another letter than
the already-activated error, bare or wrapped. -/
theorem errNoRecord_ne (userCode : String) :
    errNoRecord userCode ≠ cannotSet errAlreadyActivated ∧
      errNoRecord userCode ≠ errAlreadyActivated := by
  have hd : (errNoRecord userCode).data.head? = some 'n' := rfl
  constructor
  · intro h
    rw [h] at hd
    revert hd
    decide
  · intro h
    rw [h] at hd
    revert hd
    decide

/-- Under the unique index, an update built from a snapshot of a row of the
table (same id, or no id) selects that row and no other. -/
theorem filter_updateMatches_snapshot {db : Store} {r model : Device}
    (hu : UniqueUserCodes db) (hr : r ∈ db) (hid : model.ID = r.ID ∨ model.ID = "") :
    db.filter (updateMatches model r.UserCode) = [r] := by
  rw [← filter_userCode_eq hu hr]
  apply List.filter_congr
  intro x hx
  by_cases hc : x.UserCode = r.UserCode
  · rw [eq_of_userCode_eq hu hr hx hc]
    rcases hid with h | h <;> simp [updateMatches, h]
  · simp [updateMatches, hc]

/-- Binds of a row whose token is set, made one after the other with non-empty
tokens at instants not after its expiry, all fail with the already-activated
error and leave the table as it was. -/
theorem bindAll_of_bound (r : Device) (hcode : r.UserCode ≠ "") (hset : r.Token ≠ "")
    (calls : List (Time × String)) :
    ∀ {db : Store}, UniqueUserCodes db → r ∈ db →
      (∀ a ∈ calls, ¬ a.1 > r.ExpiresAt ∧ a.2 ≠ "") →
      bindAll db r.UserCode calls =
        (calls.map (fun _ => .error (cannotSet errAlreadyActivated)), db) := by
  induction calls with
  | nil => intro db _ _ _; rfl
  | cons a rest ih =>
    intro db hu hr hall
    obtain ⟨now, t⟩ := a
    obtain ⟨hlive, ht⟩ := hall (now, t) (List.mem_cons_self _ _)
    have hs := SetTokenForUserCode_of_bound t now hu hr hset
    have he : activatedBindError r t now = cannotSet errAlreadyActivated := by
      simp only at hlive ht
      simp [activatedBindError, hcode, ht, hlive]
    rw [he] at hs
    simp only [bindAll, hs, List.map_cons]
    rw [ih hu hr (fun a ha => hall a (List.mem_cons_of_mem _ ha))]

/-- C7, as the code has it. When callers invoke `SetTokenForUserCode` one
after the other (each call returns before the next starts) on a row in the
Issued state with a non-empty user code, with non-empty tokens and at instants
not after `ExpiresAt`, in a table with the unique index on user codes: the
first call succeeds, every later call fails with the already-activated error,
and the row ends up holding the token of the first caller. -/
theorem bindAll_first_wins (db : Store) (r : Device) (now : Time) (t : String)
    (rest : List (Time × String)) (later : Time) (hu : UniqueUserCodes db) (hr : r ∈ db)
    (hcode : r.UserCode ≠ "") (hempty : r.Token = "") (hlive : ¬ now > r.ExpiresAt)
    (ht : t ≠ "") (hrest : ∀ a ∈ rest, ¬ a.1 > r.ExpiresAt ∧ a.2 ≠ "") :
    (bindAll db r.UserCode ((now, t) :: rest)).1 =
        .ok () :: rest.map (fun _ => .error (cannotSet errAlreadyActivated)) ∧
      GetTokenForUserCode (bindAll db r.UserCode ((now, t) :: rest)).2 r.UserCode later =
        .ok t := by
  have hs := SetTokenForUserCode_of_issued hu hr hcode hempty hlive ht
  have hmem := updateToken_hit r r.UserCode t now hr (updateMatches_self r)
  have hu' := updateToken_unique r r.UserCode t now hu
  have hb := bindAll_of_bound { r with Token := t, UpdatedAt := now } hcode ht rest
    hu' hmem hrest
  simp only at hb
  simp only [bindAll, hs, hb, true_and]
  have := GetTokenForUserCode_of_mem later hu' hmem
  simp only at this
  rw [this]
  exact tokenResult_bound later ht

/-- Three callers in a row on the issued row: `tok-X` wins, `tok-Y` and `tok-Z`
are refused as already activated, and a read returns `tok-X`. -/
theorem bindAll_first_wins_witness :
    (bindAll [issuedRow] "PLANT-AB12CD" [(5, "tok-X"), (6, "tok-Y"), (7, "tok-Z")]).1 =
        [.ok (), .error (cannotSet errAlreadyActivated),
          .error (cannotSet errAlreadyActivated)] ∧
      GetTokenForUserCode
        (bindAll [issuedRow] "PLANT-AB12CD" [(5, "tok-X"), (6, "tok-Y"), (7, "tok-Z")]).2
        "PLANT-AB12CD" 8 = .ok "tok-X" :=
  bindAll_first_wins [issuedRow] issuedRow 5 "tok-X" [(6, "tok-Y"), (7, "tok-Z")] 8
    (by decide) (by decide) (by decide) rfl (by decide) (by decide) (by decide)

/-- C7 as stated fails: two calls on the issued row, with `tok-X` and `tok-Y`,
that both validate before either updates, both succeed, and the row holds
`tok-Y`, the token of the later update; no call gets the already-activated
error. -/
theorem concurrent_binds_counterexample :
    runSchedule [issuedRow]
        [⟨"PLANT-AB12CD", "tok-X", .start⟩, ⟨"PLANT-AB12CD", "tok-Y", .start⟩]
        [(0, 5), (1, 5), (0, 6), (1, 7)] =
      ([⟨"PLANT-AB12CD", "tok-X", .done (.ok ())⟩,
          ⟨"PLANT-AB12CD", "tok-Y", .done (.ok ())⟩],
        [{ issuedRow with Token := "tok-Y", UpdatedAt := 7 }]) := by
  decide

/-- C8, as the code has it. The update of `SetTokenForUserCode` is keyed by
the user code (and the id of the validated row) alone: in a table with the
unique index on user codes, built from a snapshot of a row of the table, it
writes the token to that row whatever the row's token and expiry are at the
moment of the update, reports one affected row, and leaves rows with another
user code as they are; a read then returns the new token. -/
theorem updateToken_unconditional (db : Store) (r model : Device) (token : String)
    (now later : Time) (hu : UniqueUserCodes db) (hr : r ∈ db)
    (hid : model.ID = r.ID ∨ model.ID = "") :
    (updateToken db model r.UserCode token now).2 = { Error := none, RowsAffected := 1 } ∧
      { r with Token := token, UpdatedAt := now } ∈
        (updateToken db model r.UserCode token now).1 ∧
      (∀ x ∈ db, x.UserCode ≠ r.UserCode →
        x ∈ (updateToken db model r.UserCode token now).1) ∧
      (token ≠ "" →
        GetTokenForUserCode (updateToken db model r.UserCode token now).1 r.UserCode later =
          .ok token) := by
  have hf := filter_updateMatches_snapshot hu hr hid
  have hm : updateMatches model r.UserCode r = true := by
    have : r ∈ db.filter (updateMatches model r.UserCode) := by rw [hf]; simp
    exact (List.mem_filter.mp this).2
  have hmem := updateToken_hit model r.UserCode token now hr hm
  refine ⟨?_, hmem, ?_, ?_⟩
  · simp only [updateToken, hf, List.length_singleton]
  · intro x hx hc
    exact updateToken_other model r.UserCode token now hx hc
  · intro ht
    have hu' := updateToken_unique model r.UserCode token now hu
    have := GetTokenForUserCode_of_mem later hu' hmem
    simp only at this
    rw [this]
    exact tokenResult_bound later ht

/-- The update built from the row validated while it was unbound, run at
instant 1000, past the expiry, on the table where the row holds `tok-X`:
one row affected, and a read returns `tok-Y`. -/
theorem updateToken_unconditional_witness :
    (updateToken [activatedRow] issuedRow "PLANT-AB12CD" "tok-Y" 1000).2 =
        { Error := none, RowsAffected := 1 } ∧
      GetTokenForUserCode (updateToken [activatedRow] issuedRow "PLANT-AB12CD" "tok-Y" 1000).1
        "PLANT-AB12CD" 1001 = .ok "tok-Y" :=
  ⟨(updateToken_unconditional [activatedRow] activatedRow issuedRow "tok-Y" 1000 1001
      (by decide) (by decide) (by decide)).1,
    (updateToken_unconditional [activatedRow] activatedRow issuedRow "tok-Y" 1000 1001
      (by decide) (by decide) (by decide)).2.2.2 (by decide)⟩

/-- C8 as stated fails: on the table where the row already holds `tok-X`, the
update built from the row validated while it was unbound replaces `tok-X` by
`tok-Y` and reports one affected row, not zero. -/
theorem updateToken_counterexample :
    ValidateUserCode [issuedRow] "PLANT-AB12CD" 5 = .ok issuedRow ∧
      updateToken [activatedRow] issuedRow "PLANT-AB12CD" "tok-Y" 6 =
        ([{ activatedRow with Token := "tok-Y", UpdatedAt := 6 }],
          { Error := none, RowsAffected := 1 }) ∧
      (updateToken [activatedRow] issuedRow "PLANT-AB12CD" "tok-Y" 6).1 ≠ [activatedRow] ∧
      (updateToken [activatedRow] issuedRow "PLANT-AB12CD" "tok-Y" 6).2.RowsAffected ≠ 0 := by
  decide

/-- C9, as the code has it. When `ValidateUserCode` has succeeded for a call
with non-empty arguments and the update then affects no row,
`SetTokenForUserCode` does not report success: it returns the error
`no device record found for user code ... to update token (should not happen after ValidateUserCode)`,
which is not the already-activated error, and the table is left as it was. -/
theorem zero_rows_error (db0 db : Store) (userCode token : String) (now0 now : Time)
    (deviceAuth : Device) (hc : userCode ≠ "") (ht : token ≠ "")
    (hv : ValidateUserCode db0 userCode now0 = .ok deviceAuth)
    (h0 : (updateToken db deviceAuth userCode token now).2.RowsAffected = 0) :
    advance db0 now0 ⟨userCode, token, .start⟩ =
        (⟨userCode, token, .validated deviceAuth⟩, db0) ∧
      advance db now ⟨userCode, token, .validated deviceAuth⟩ =
        (⟨userCode, token, .done (.error (errNoRecord userCode))⟩, db) ∧
      Except.error (errNoRecord userCode) ≠ (Except.ok () : Except String Unit) ∧
      errNoRecord userCode ≠ cannotSet errAlreadyActivated ∧
      errNoRecord userCode ≠ errAlreadyActivated := by
  refine ⟨?_, ?_, by simp, (errNoRecord_ne userCode).1, (errNoRecord_ne userCode).2⟩
  · have he : (userCode == "" || token == "") = false := by simp [hc, ht]
    simp only [advance, he, hv, Bool.false_eq_true, if_false]
  · have hdb := updateToken_none h0
    have hres : (updateToken db deviceAuth userCode token now).2 =
        { Error := none, RowsAffected := 0 } := by
      simp only [updateToken] at h0 ⊢
      rw [h0]
    simp only [advance, hdb, hres, afterUpdate, errNoRecord]
    rfl

/-- A call validates on the issued row at instant 5; the row is gone from the
table when the update runs at instant 6; the call returns the no-record
error. -/
theorem zero_rows_error_witness :
    advance [] 6 ⟨"PLANT-AB12CD", "tok-X", .validated issuedRow⟩ =
      (⟨"PLANT-AB12CD", "tok-X", .done (.error (errNoRecord "PLANT-AB12CD"))⟩, []) :=
  (zero_rows_error [issuedRow] [] "PLANT-AB12CD" "tok-X" 5 6 issuedRow (by decide)
    (by decide) (by decide) (by decide)).2.1

/-- C9 as stated fails: after a validation that succeeded, an update that
affects no row makes the call return the no-record error, which is not the
already-activated error that a bind of an activated code returns. -/
theorem zero_rows_counterexample :
    ValidateUserCode [issuedRow] "PLANT-AB12CD" 5 = .ok issuedRow ∧
      (updateToken [] issuedRow "PLANT-AB12CD" "tok-X" 6).2.RowsAffected = 0 ∧
      (advance [] 6 ⟨"PLANT-AB12CD", "tok-X", .validated issuedRow⟩).1.state =
        .done (.error (errNoRecord "PLANT-AB12CD")) ∧
      (SetTokenForUserCode [activatedRow] "PLANT-AB12CD" "tok-Y" 6).1 =
        .error (cannotSet errAlreadyActivated) ∧
      (advance [] 6 ⟨"PLANT-AB12CD", "tok-X", .validated issuedRow⟩).1.state ≠
        .done (SetTokenForUserCode [activatedRow] "PLANT-AB12CD" "tok-Y" 6).1 := by
  decide

/-! ## Validation of activated rows -/

/-- C11, as the code has it. For a row of the table whose token is set, in a
table with the unique index on user codes, `ValidateUserCode` fails: with the
already-activated error when the time is not after `ExpiresAt`, and with the
expired error when the time is after `ExpiresAt`. The expired error is given
for every row past its `ExpiresAt`, whether its token is set or empty. -/
theorem ValidateUserCode_activated (db : Store) (r : Device) (now : Time)
    (hu : UniqueUserCodes db) (hr : r ∈ db) :
    (r.Token ≠ "" → ¬ now > r.ExpiresAt →
        ValidateUserCode db r.UserCode now = .error errAlreadyActivated) ∧
      (r.Token ≠ "" → now > r.ExpiresAt →
        ValidateUserCode db r.UserCode now = .error errExpired) ∧
      (now > r.ExpiresAt → ValidateUserCode db r.UserCode now = .error errExpired) ∧
      errExpired ≠ errAlreadyActivated := by
  refine ⟨?_, ?_, ?_, by decide⟩
  · intro ht hn
    rw [ValidateUserCode_of_mem now hu hr, validateResult_activated ht hn]
  · intro _ hn
    rw [ValidateUserCode_of_mem now hu hr, validateResult_expired hn]
  · intro hn
    rw [ValidateUserCode_of_mem now hu hr, validateResult_expired hn]

/-- At instant 900, its last live instant, the activated row is refused as
already activated. -/
theorem ValidateUserCode_activated_witness :
    ValidateUserCode [activatedRow] "PLANT-AB12CD" 900 = .error errAlreadyActivated :=
  (ValidateUserCode_activated [activatedRow] activatedRow 900 (by decide) (by decide)).1
    (by decide) (by decide)

/-- C11 as stated fails: at instant 1000, after its expiry at 900, the row that
holds `tok-X` is refused with the expired error, not the already-activated
error. -/
theorem ValidateUserCode_activated_counterexample :
    activatedRow.Token = "tok-X" ∧
      ValidateUserCode [activatedRow] "PLANT-AB12CD" 1000 = .error errExpired ∧
      ValidateUserCode [activatedRow] "PLANT-AB12CD" 1000 ≠ .error errAlreadyActivated := by
  decide

/-! ## Issuing codes -/

/-- The query finds a row appended with a user code that was not in use. -/
theorem firstByUserCode_append_new {db : Store} {x : Device}
    (hx : x.UserCode ∉ db.map Device.UserCode) :
    firstByUserCode (db ++ [x]) x.UserCode = .ok x := by
  have hnone : db.filter (fun r => r.UserCode == x.UserCode) = [] := by
    rw [List.filter_eq_nil_iff]
    intro r hr hc
    exact hx (List.mem_map.mpr ⟨r, hr, by simpa using hc⟩)
  simp [firstByUserCode, List.filter_append, hnone, List.filter_cons, pickFirst]

/-- The store accepts a row exactly when its id, user code and device id are
all new; it then appends the row. -/
theorem create_accepts {db : Store} {d : Device} (h : (create db d).2.Error = none) :
    d.ID ∉ db.map Device.ID ∧ d.UserCode ∉ db.map Device.UserCode ∧
      d.DeviceID ∉ db.map Device.DeviceID ∧
      create db d = (db ++ [d], { Error := none, RowsAffected := 1 }) := by
  unfold create at h ⊢
  split at h
  · cases h
  · split at h
    · cases h
    · split at h
      · cases h
      · rename_i h1 h2 h3
        exact ⟨h1, h2, h3, by rw [if_neg h1, if_neg h2, if_neg h3]⟩

/-- What `NewCode` does for a non-empty device id, in terms of the insert. -/
theorem NewCode_eq (db : Store) (deviceID u idDraw : String) (now : Time)
    (hd : deviceID ≠ "") :
    NewCode db deviceID u idDraw now =
      match (create db (issuedRecord deviceID u idDraw now)).2.Error with
      | some err =>
        (.error ("failed to create device auth record: " ++ err.Error),
          (create db (issuedRecord deviceID u idDraw now)).1)
      | none => (.ok (userCodeOf u), (create db (issuedRecord deviceID u idDraw now)).1) := by
  have hd' : (deviceID == "") = false := by simp [hd]
  simp only [NewCode, hd', issuedRecord, Bool.false_eq_true, if_false]

/-- C12. For a non-empty device id whose row the store accepts, `NewCode` at
instant `now` returns the generated code and adds exactly one row, at the end
of the table: its device id is the given one, its user code the returned code,
its token empty, and its `ExpiresAt` is `now` plus `UserCodeDuration`, which is
900 seconds; `ValidateUserCode` on the returned code then succeeds with that
row, at `later = now` and at any instant not after `ExpiresAt`. -/
theorem NewCode_adds (db : Store) (deviceID u idDraw : String) (now later : Time)
    (hd : deviceID ≠ "")
    (hacc : (create db (issuedRecord deviceID u idDraw now)).2.Error = none)
    (hlater : ¬ later > now + UserCodeDuration) :
    NewCode db deviceID u idDraw now =
        (.ok (userCodeOf u), db ++ [issuedRecord deviceID u idDraw now]) ∧
      (issuedRecord deviceID u idDraw now).DeviceID = deviceID ∧
      (issuedRecord deviceID u idDraw now).UserCode = userCodeOf u ∧
      (issuedRecord deviceID u idDraw now).Token = "" ∧
      (issuedRecord deviceID u idDraw now).ExpiresAt = now + UserCodeDuration ∧
      UserCodeDuration = 900 * 1000000000 ∧
      ValidateUserCode (db ++ [issuedRecord deviceID u idDraw now]) (userCodeOf u) later =
        .ok (issuedRecord deviceID u idDraw now) ∧
      ValidateUserCode (db ++ [issuedRecord deviceID u idDraw now]) (userCodeOf u) now =
        .ok (issuedRecord deviceID u idDraw now) := by
  obtain ⟨_, hcode, _, hc⟩ := create_accepts hacc
  have hfields : (issuedRecord deviceID u idDraw now).DeviceID = deviceID ∧
      (issuedRecord deviceID u idDraw now).UserCode = userCodeOf u ∧
      (issuedRecord deviceID u idDraw now).Token = "" ∧
      (issuedRecord deviceID u idDraw now).ExpiresAt = now + UserCodeDuration := by
    simp [issuedRecord, BeforeCreate]
  obtain ⟨h1, h2, h3, h4⟩ := hfields
  have hval : ∀ t : Time, ¬ t > now + UserCodeDuration →
      ValidateUserCode (db ++ [issuedRecord deviceID u idDraw now]) (userCodeOf u) t =
        .ok (issuedRecord deviceID u idDraw now) := by
    intro t ht
    unfold ValidateUserCode
    rw [← h2, firstByUserCode_append_new hcode]
    exact validateResult_issued h3 (by rw [h4]; exact ht)
  refine ⟨?_, h1, h2, h3, h4, by decide, hval later hlater, hval now ?_⟩
  · rw [NewCode_eq db deviceID u idDraw now hd, hacc, hc]
  · have h0 : (0 : Int) ≤ UserCodeDuration := by decide
    exact not_lt.mpr (le_add_of_nonneg_right h0)

/-- Scenario A: `dev-1` is issued `PLANT-AB12CD` at instant 0 on the empty
table, which then holds the one new row. -/
theorem NewCode_adds_witness :
    NewCode [] "dev-1" "ab12cd34-e5f6-4a7b-8c9d-0e1f2a3b4c5d" "id-1" 0 =
      (.ok "PLANT-AB12CD",
        [{ ID := "id-1", UserCode := "PLANT-AB12CD", DeviceID := "dev-1", Token := "",
           CreatedAt := 0, UpdatedAt := 0, ExpiresAt := 900000000000,
           LastUsedAt := none }]) :=
  (NewCode_adds [] "dev-1" "ab12cd34-e5f6-4a7b-8c9d-0e1f2a3b4c5d" "id-1" 0 0 (by decide)
    (by decide) (by decide)).1

/-- C13. With an empty device id `NewCode` fails with the validation error
`deviceID cannot be empty`, returns no code, and leaves the table as it was. -/
theorem NewCode_empty_deviceID (db : Store) (u idDraw : String) (now : Time) :
    NewCode db "" u idDraw now = (.error "deviceID cannot be empty", db) ∧
      (∀ code, (NewCode db "" u idDraw now).1 ≠ .ok code) ∧
      (NewCode db "" u idDraw now).2 = db := by
  have h : NewCode db "" u idDraw now = (.error "deviceID cannot be empty", db) := by
    simp [NewCode]
  rw [h]
  exact ⟨rfl, fun code hc => Except.noConfusion hc, rfl⟩

/-- An insert the store refuses leaves the table as it was. -/
theorem create_refused {db : Store} {d : Device} {e : GormError}
    (h : (create db d).2.Error = some e) : (create db d).1 = db := by
  rcases create_cases db d with ⟨e', he⟩ | ⟨_, he⟩
  · rw [he]
  · rw [he] at h
    cases h

/-- When the id, the generated code or the device id is already in the table,
`NewCode` fails with the storage error and leaves the table as it was. -/
theorem NewCode_refused {db : Store} {deviceID u idDraw : String} (now : Time)
    (hd : deviceID ≠ "")
    (h : idDraw ∈ db.map Device.ID ∨ userCodeOf u ∈ db.map Device.UserCode ∨
      deviceID ∈ db.map Device.DeviceID) :
    ∃ e : GormError, NewCode db deviceID u idDraw now =
      (.error ("failed to create device auth record: " ++ e.Error), db) := by
  rw [NewCode_eq db deviceID u idDraw now hd]
  cases hE : (create db (issuedRecord deviceID u idDraw now)).2.Error with
  | none =>
    obtain ⟨h1, h2, h3, _⟩ := create_accepts hE
    have hf : (issuedRecord deviceID u idDraw now).ID = idDraw ∧
        (issuedRecord deviceID u idDraw now).UserCode = userCodeOf u ∧
        (issuedRecord deviceID u idDraw now).DeviceID = deviceID := by
      simp [issuedRecord, BeforeCreate]
    rw [hf.1] at h1
    rw [hf.2.1] at h2
    rw [hf.2.2] at h3
    rcases h with h | h | h
    · exact absurd h h1
    · exact absurd h h2
    · exact absurd h h3
  | some e =>
    refine ⟨e, ?_⟩
    simp only [create_refused hE]

/-- C14, as the code has it. The table has a unique index on `device_id`:
after a successful `NewCode` for a device id, a second `NewCode` with the same
device id fails with the storage error, whatever codes and ids are drawn, and
leaves the table as it was, with the one row the first call added. -/
theorem NewCode_same_deviceID (db db1 : Store) (deviceID u1 id1 u2 id2 code : String)
    (now1 now2 : Time) (h1 : NewCode db deviceID u1 id1 now1 = (.ok code, db1)) :
    db1.length = db.length + 1 ∧
      ∃ e : GormError, NewCode db1 deviceID u2 id2 now2 =
        (.error ("failed to create device auth record: " ++ e.Error), db1) := by
  obtain ⟨_, _, x, hdb, _, hx, _, _⟩ := NewCode_ok h1
  have hd : deviceID ≠ "" := by
    intro h
    subst h
    simp [NewCode] at h1
  refine ⟨by rw [hdb]; simp, ?_⟩
  apply NewCode_refused now2 hd
  right; right
  rw [hdb]
  simp only [List.map_append, List.mem_append, List.map_cons, List.map_nil,
    List.mem_singleton]
  exact Or.inr hx.symm

/-- After `dev-1` was issued `PLANT-AB12CD`, a second request of `dev-1` is
refused although the code drawn for it is new. -/
theorem NewCode_same_deviceID_witness :
    ∃ e : GormError,
      NewCode (NewCode [] "dev-1" "ab12cd34-e5f6-4a7b-8c9d-0e1f2a3b4c5d" "id-1" 0).2 "dev-1"
          "0f3a9c77-e5f6-4a7b-8c9d-0e1f2a3b4c5d" "id-2" 1 =
        (.error ("failed to create device auth record: " ++ e.Error),
          (NewCode [] "dev-1" "ab12cd34-e5f6-4a7b-8c9d-0e1f2a3b4c5d" "id-1" 0).2) :=
  (NewCode_same_deviceID [] _ "dev-1" "ab12cd34-e5f6-4a7b-8c9d-0e1f2a3b4c5d" "id-1"
    "0f3a9c77-e5f6-4a7b-8c9d-0e1f2a3b4c5d" "id-2" "PLANT-AB12CD" 0 1 (by decide)).2

/-- C14 as stated fails: issuing twice for `dev-1`, with the distinct codes
`PLANT-AB12CD` and `PLANT-0F3A9C` and distinct ids, the second call fails on
the unique index of `device_id` and the table holds one row, not two. -/
theorem NewCode_same_deviceID_counterexample :
    (NewCode [] "dev-1" "ab12cd34-e5f6-4a7b-8c9d-0e1f2a3b4c5d" "id-1" 0).1 =
        .ok "PLANT-AB12CD" ∧
      userCodeOf "0f3a9c77-e5f6-4a7b-8c9d-0e1f2a3b4c5d" = "PLANT-0F3A9C" ∧
      (NewCode (NewCode [] "dev-1" "ab12cd34-e5f6-4a7b-8c9d-0e1f2a3b4c5d" "id-1" 0).2 "dev-1"
          "0f3a9c77-e5f6-4a7b-8c9d-0e1f2a3b4c5d" "id-2" 1).1 =
        .error "failed to create device auth record: UNIQUE constraint failed: devices.device_id" ∧
      (NewCode (NewCode [] "dev-1" "ab12cd34-e5f6-4a7b-8c9d-0e1f2a3b4c5d" "id-1" 0).2 "dev-1"
          "0f3a9c77-e5f6-4a7b-8c9d-0e1f2a3b4c5d" "id-2" 1).2.length = 1 := by
  decide

/-- C15, as the code has it. On a collision of the generated code with the
user code of a row of the table, `NewCode` (with a non-empty device id) does
not try again: it fails at once with the storage error; no code is returned
and the table, the existing row included, is left as it was. -/
theorem NewCode_collision (db : Store) (deviceID u idDraw : String) (now : Time)
    (hd : deviceID ≠ "") (hcoll : userCodeOf u ∈ db.map Device.UserCode) :
    (∃ e : GormError, NewCode db deviceID u idDraw now =
        (.error ("failed to create device auth record: " ++ e.Error), db)) ∧
      (∀ code, (NewCode db deviceID u idDraw now).1 ≠ .ok code) ∧
      (NewCode db deviceID u idDraw now).2 = db := by
  obtain ⟨e, he⟩ := NewCode_refused now hd (Or.inr (Or.inl hcoll))
  rw [he]
  exact ⟨⟨e, rfl⟩, fun code hc => Except.noConfusion hc, rfl⟩

/-- A draw that gives `PLANT-AB12CD` again, for `dev-2`, leaves the table with
the issued row alone. -/
theorem NewCode_collision_witness :
    (NewCode [issuedRow] "dev-2" "ab12cd99-e5f6-4a7b-8c9d-0e1f2a3b4c5d" "id-2" 7).2 =
      [issuedRow] :=
  (NewCode_collision [issuedRow] "dev-2" "ab12cd99-e5f6-4a7b-8c9d-0e1f2a3b4c5d" "id-2" 7
    (by decide) (by decide)).2.2

/-- C15 as stated fails: `NewCode` makes one draw and fails on its collision,
where the bounded retry of the spec, given a second draw that does not
collide, issues `PLANT-0F3A9C`. -/
theorem NewCode_collision_counterexample :
    NewCode [issuedRow] "dev-2" "ab12cd99-e5f6-4a7b-8c9d-0e1f2a3b4c5d" "id-2" 7 =
        (.error "failed to create device auth record: UNIQUE constraint failed: devices.user_code",
          [issuedRow]) ∧
      (specIssueWithRetry [issuedRow] "dev-2" 7
          [("ab12cd99-e5f6-4a7b-8c9d-0e1f2a3b4c5d", "id-2"),
            ("0f3a9c77-e5f6-4a7b-8c9d-0e1f2a3b4c5d", "id-3")]).1 = .ok "PLANT-0F3A9C" ∧
      (NewCode [issuedRow] "dev-2" "ab12cd99-e5f6-4a7b-8c9d-0e1f2a3b4c5d" "id-2" 7).1 ≠
        (specIssueWithRetry [issuedRow] "dev-2" 7
          [("ab12cd99-e5f6-4a7b-8c9d-0e1f2a3b4c5d", "id-2"),
            ("0f3a9c77-e5f6-4a7b-8c9d-0e1f2a3b4c5d", "id-3")]).1 := by
  decide

/-- C16. In every table built from the empty table by a sequence of calls of
`NewCode`, `ValidateUserCode`, `SetTokenForUserCode` and `GetTokenForUserCode`,
no two rows share a user code. -/
theorem reachable_userCodes_unique (trace : List (Time × Op)) :
    UniqueUserCodes (run [] trace) ∧
      (run [] trace).Pairwise (fun a b => a.UserCode ≠ b.UserCode) := by
  have hu := (run_nil_invariant trace).1
  exact ⟨hu, List.pairwise_map.mp hu⟩

/-! ## The shape of a generated code -/

/-- Upper-casing a hexadecimal digit gives one of `0-9`, `A-F`. -/
theorem toUpper_hexLower : ∀ c ∈ hexLower ++ hexUpper, Char.toUpper c ∈ hexUpper := by
  decide

/-- C17. For a UUID string `u` in canonical form the generated user code is
`PLANT-` followed by the first six characters of `u` in upper case: it has 12
characters, the first six are `PLANT-`, and each of the last six is one of
`0-9`, `A-F`, so none is a hyphen or a lower-case letter. -/
theorem userCodeOf_canonical (u : String) (h : CanonicalUUID u) :
    userCodeOf u = "PLANT-" ++ String.mk ((u.data.take 6).map Char.toUpper) ∧
      (userCodeOf u).length = 12 ∧
      (userCodeOf u).data.take 6 = "PLANT-".data ∧
      ((userCodeOf u).data.drop 6).length = 6 ∧
      ∀ c ∈ (userCodeOf u).data.drop 6, c ∈ hexUpper ∧ c ≠ '-' ∧ ¬ c.isLower := by
  obtain ⟨hlen, hshape⟩ := h
  obtain ⟨l⟩ := u
  simp only at hlen hshape
  rcases l with _ | ⟨c0, _ | ⟨c1, _ | ⟨c2, _ | ⟨c3, _ | ⟨c4, _ | ⟨c5, rest⟩⟩⟩⟩⟩⟩
  · simp at hlen
  · simp at hlen
  · simp at hlen
  · simp at hlen
  · simp at hlen
  · simp at hlen
  · have hdata : (userCodeOf ⟨c0 :: c1 :: c2 :: c3 :: c4 :: c5 :: rest⟩).data =
        ['P', 'L', 'A', 'N', 'T', '-', c0.toUpper, c1.toUpper, c2.toUpper, c3.toUpper,
          c4.toUpper, c5.toUpper] := rfl
    simp only [canonicalFrom, canonicalAt, Bool.and_eq_true] at hshape
    obtain ⟨h0, h1, h2, h3, h4, h5, _⟩ := hshape
    have k0 := toUpper_hexLower c0 (by simpa using h0)
    have k1 := toUpper_hexLower c1 (by simpa using h1)
    have k2 := toUpper_hexLower c2 (by simpa using h2)
    have k3 := toUpper_hexLower c3 (by simpa using h3)
    have k4 := toUpper_hexLower c4 (by simpa using h4)
    have k5 := toUpper_hexLower c5 (by simpa using h5)
    have hup : ∀ c ∈ hexUpper, c ∈ hexUpper ∧ c ≠ '-' ∧ ¬ c.isLower := by decide
    refine ⟨rfl, ?_, ?_, ?_, ?_⟩
    · show (userCodeOf _).data.length = 12
      rw [hdata]
      rfl
    · rw [hdata]
      rfl
    · rw [hdata]
      rfl
    · rw [hdata]
      intro c hc
      simp only [List.drop_succ_cons, List.drop_zero, List.mem_cons, List.mem_singleton,
        List.not_mem_nil, or_false] at hc
      rcases hc with h | h | h | h | h | h <;> subst h
      · exact hup _ k0
      · exact hup _ k1
      · exact hup _ k2
      · exact hup _ k3
      · exact hup _ k4
      · exact hup _ k5

/-- The code of the UUID `ab12cd34-e5f6-4a7b-8c9d-0e1f2a3b4c5d` has 12
characters. -/
theorem userCodeOf_canonical_witness :
    CanonicalUUID "ab12cd34-e5f6-4a7b-8c9d-0e1f2a3b4c5d" ∧
      (userCodeOf "ab12cd34-e5f6-4a7b-8c9d-0e1f2a3b4c5d").length = 12 :=
  ⟨by decide,
    (userCodeOf_canonical "ab12cd34-e5f6-4a7b-8c9d-0e1f2a3b4c5d" (by decide)).2.1⟩

/-- C18. The user code does not depend on the device id: two runs of `NewCode`
that succeed with the same UUID draw `u`, whatever their device ids, tables,
id draws and instants, return the same code, the one `u` alone determines. -/
theorem userCode_independent_of_deviceID (db1 db2 db1' db2' : Store)
    (deviceID1 deviceID2 u id1 id2 code1 code2 : String) (now1 now2 : Time)
    (h1 : NewCode db1 deviceID1 u id1 now1 = (.ok code1, db1'))
    (h2 : NewCode db2 deviceID2 u id2 now2 = (.ok code2, db2')) :
    code1 = code2 ∧ code1 = userCodeOf u := by
  have e1 := (NewCode_ok h1).1
  have e2 := (NewCode_ok h2).1
  exact ⟨by rw [e1, e2], e1⟩

/-- The draw `ab12cd34-...` gives `PLANT-AB12CD` to `dev-1` and to `dev-2`. -/
theorem userCode_independent_of_deviceID_witness :
    (NewCode [] "dev-1" "ab12cd34-e5f6-4a7b-8c9d-0e1f2a3b4c5d" "id-1" 0).1 =
        .ok "PLANT-AB12CD" ∧
      (NewCode [] "dev-2" "ab12cd34-e5f6-4a7b-8c9d-0e1f2a3b4c5d" "id-2" 3).1 =
        .ok "PLANT-AB12CD" ∧
      "PLANT-AB12CD" = "PLANT-AB12CD" ∧
      "PLANT-AB12CD" = userCodeOf "ab12cd34-e5f6-4a7b-8c9d-0e1f2a3b4c5d" :=
  ⟨by decide, by decide,
    userCode_independent_of_deviceID [] []
      (NewCode [] "dev-1" "ab12cd34-e5f6-4a7b-8c9d-0e1f2a3b4c5d" "id-1" 0).2
      (NewCode [] "dev-2" "ab12cd34-e5f6-4a7b-8c9d-0e1f2a3b4c5d" "id-2" 3).2 "dev-1" "dev-2"
      "ab12cd34-e5f6-4a7b-8c9d-0e1f2a3b4c5d" "id-1" "id-2" "PLANT-AB12CD" "PLANT-AB12CD" 0 3
      (by decide) (by decide)⟩

/-! ## The handler of POST /device/link -/

/-- The three texts `AuthenticateDevice` compares the error of
`SetTokenForUserCode` with. -/
theorem cannotSet_ne_bare (err : String) :
    cannotSet err ≠ "invalid user code" ∧ cannotSet err ≠ "user code expired" ∧
      cannotSet err ≠ "user code already activated" := by
  have hd : (cannotSet err).data.head? = some 'c' := rfl
  refine ⟨?_, ?_, ?_⟩ <;>
  · intro h
    rw [h] at hd
    revert hd
    decide

/-- The ways `SetTokenForUserCode` fails: with the empty-argument error or with
a wrapped validation error. -/
theorem SetTokenForUserCode_error {db : Store} {userCode token err : String} {now : Time}
    (h : (SetTokenForUserCode db userCode token now).1 = .error err) :
    err = "userCode and token cannot be empty" ∨
      ∃ e, ValidateUserCode db userCode now = .error e ∧ err = cannotSet e := by
  by_cases he : userCode = "" ∨ token = ""
  · rw [SetTokenForUserCode_empty db userCode token now he] at h
    cases h
    exact Or.inl rfl
  · push_neg at he
    rcases SetTokenForUserCode_cases db userCode token now he.1 he.2 with
      ⟨e, hv, hs⟩ | ⟨r, _, hs⟩
    · rw [hs] at h
      cases h
      exact Or.inr ⟨e, hv, rfl⟩
    · rw [hs] at h
      cases h

/-- What the handler does once the body is bound and the verifier has accepted
the token: it calls `SetTokenForUserCode` once, and answers 200 on success and
500 with the wrapped error on failure. -/
theorem AuthenticateDevice_accepted {verify : Verifier} {db : Store}
    {body : Except String AuthenticateDeviceRequest} {now : Time}
    {req : AuthenticateDeviceRequest} {claims : Claims}
    (hb : bindAuthenticateDeviceRequest body = .ok req)
    (hv : verify req.Token = .ok claims) :
    (AuthenticateDevice verify db body now).calls =
        [.SetTokenForUserCode req.UserCode req.Token] ∧
      (AuthenticateDevice verify db body now).db =
        (SetTokenForUserCode db req.UserCode req.Token now).2 ∧
      ((SetTokenForUserCode db req.UserCode req.Token now).1 = .ok () →
        (AuthenticateDevice verify db body now).response.status = 200) ∧
      (∀ err, (SetTokenForUserCode db req.UserCode req.Token now).1 = .error err →
        (AuthenticateDevice verify db body now).response =
          ⟨500, [("error", .str ("Failed to link device: " ++ err))]⟩) := by
  cases hs : (SetTokenForUserCode db req.UserCode req.Token now).1 with
  | ok v =>
    simp only [AuthenticateDevice, hb, hv, hs]
    simp
  | error err =>
    have hne : (err == "invalid user code" || err == "user code expired" ||
        err == "user code already activated") = false := by
      rcases SetTokenForUserCode_error hs with h | ⟨e, _, h⟩
      · subst h
        decide
      · subst h
        obtain ⟨n1, n2, n3⟩ := cannotSet_ne_bare e
        simp [n1, n2, n3]
    simp only [AuthenticateDevice, hb, hv, hs, hne]
    simp

/-- C19. Trust boundary. For every request to POST /device/link whose body
binds and whose token the verifier rejects, `AuthenticateDevice` answers 401,
makes no call to the manager, and leaves the table as it was; whatever the
request, every call the handler makes to the manager is the one call of
`SetTokenForUserCode` with the user code and the token of the bound body, a
token the verifier accepted; and a decoded body whose token the verifier
rejects, bound or not, leads to no call and no change of the table. -/
theorem trust_boundary (verify : Verifier) (db : Store)
    (body : Except String AuthenticateDeviceRequest) (now : Time) :
    (∀ req err, bindAuthenticateDeviceRequest body = .ok req →
        verify req.Token = .error err →
        (AuthenticateDevice verify db body now).response.status = 401 ∧
          (AuthenticateDevice verify db body now).calls = [] ∧
          (AuthenticateDevice verify db body now).db = db) ∧
      (∀ op ∈ (AuthenticateDevice verify db body now).calls,
        ∃ req claims, bindAuthenticateDeviceRequest body = .ok req ∧
          verify req.Token = .ok claims ∧
          op = .SetTokenForUserCode req.UserCode req.Token) ∧
      (∀ req err, body = .ok req → verify req.Token = .error err →
        (AuthenticateDevice verify db body now).calls = [] ∧
          (AuthenticateDevice verify db body now).db = db) := by
  refine ⟨?_, ?_, ?_⟩
  · intro req err hb hv
    simp only [AuthenticateDevice, hb, hv]
    simp
  rotate_left
  · intro req err hbody hv
    cases hb : bindAuthenticateDeviceRequest body with
    | error e =>
      simp only [AuthenticateDevice, hb]
      simp
    | ok req' =>
      have hreq : req' = req := by
        subst hbody
        simp only [bindAuthenticateDeviceRequest] at hb
        split at hb
        · cases hb
        · split at hb
          · cases hb
          · split at hb
            · cases hb
            · cases hb
              rfl
      subst hreq
      simp only [AuthenticateDevice, hb, hv]
      simp
  · intro op hop
    cases hb : bindAuthenticateDeviceRequest body with
    | error e =>
      simp only [AuthenticateDevice, hb] at hop
      cases hop
    | ok req =>
      cases hv : verify req.Token with
      | error e =>
        simp only [AuthenticateDevice, hb, hv] at hop
        cases hop
      | ok claims =>
        rw [(AuthenticateDevice_accepted hb hv).1] at hop
        simp only [List.mem_singleton] at hop
        exact ⟨req, claims, rfl, hv, hop⟩

/-- A forged token for the issued code: the answer is 401, no call is made and
the row stays unbound. -/
theorem trust_boundary_witness :
    (AuthenticateDevice sampleVerifier [issuedRow] (.ok ⟨"PLANT-AB12CD", "forged-jwt"⟩)
        5).response.status = 401 ∧
      (AuthenticateDevice sampleVerifier [issuedRow] (.ok ⟨"PLANT-AB12CD", "forged-jwt"⟩)
        5).calls = [] ∧
      (AuthenticateDevice sampleVerifier [issuedRow] (.ok ⟨"PLANT-AB12CD", "forged-jwt"⟩)
        5).db = [issuedRow] :=
  (trust_boundary sampleVerifier [issuedRow] (.ok ⟨"PLANT-AB12CD", "forged-jwt"⟩) 5).1
    ⟨"PLANT-AB12CD", "forged-jwt"⟩ "token is invalid" (by decide) (by decide)

/-- C20 fails on the code. With a token the verifier accepts, a bind that
fails because the code is unknown, expired or already activated is answered
with 500 and `Failed to link device: cannot set token: ...`, not with 400:
`SetTokenForUserCode` wraps the error of `ValidateUserCode`, so none of the
three texts the handler compares it with is ever equal to it. -/
theorem AuthenticateDevice_bind_failure_500 :
    (AuthenticateDevice sampleVerifier [issuedRow] (.ok ⟨"PLANT-ZZZZZZ", "good-jwt"⟩)
        5).response =
        ⟨500, [("error", .str "Failed to link device: cannot set token: invalid user code")]⟩ ∧
      (AuthenticateDevice sampleVerifier [issuedRow] (.ok ⟨"PLANT-AB12CD", "good-jwt"⟩)
        901).response =
        ⟨500, [("error", .str "Failed to link device: cannot set token: user code expired")]⟩ ∧
      (AuthenticateDevice sampleVerifier [activatedRow] (.ok ⟨"PLANT-AB12CD", "good-jwt"⟩)
        5).response =
        ⟨500, [("error",
          .str "Failed to link device: cannot set token: user code already activated")]⟩ := by
  decide

/-- The same for every request: after the verifier has accepted the token, a
bind that fails is answered with 500, whatever the reason. -/
theorem AuthenticateDevice_bind_failure_general (verify : Verifier) (db : Store)
    (body : Except String AuthenticateDeviceRequest) (now : Time)
    (req : AuthenticateDeviceRequest) (claims : Claims) (err : String)
    (hb : bindAuthenticateDeviceRequest body = .ok req)
    (hv : verify req.Token = .ok claims)
    (hs : (SetTokenForUserCode db req.UserCode req.Token now).1 = .error err) :
    (AuthenticateDevice verify db body now).response.status = 500 := by
  rw [(AuthenticateDevice_accepted hb hv).2.2.2 err hs]

/-! ## The handlers of GET /device/check-status and POST /device/request-code -/

/-- C21. When `GetTokenForUserCode` returns a stored token that the verifier
rejects, `CheckStatus` answers 401 with status `failed`, and the table is left
as it was: the call `SetTokenForUserCode(userCode, "")` the handler makes is
refused for its empty token, so the row holds the same token after the request
as before, and a read still returns it. -/
theorem CheckStatus_rejected_token (verify : Verifier) (db : Store) (code token err : String)
    (now later : Time) (hc : code ≠ "")
    (hg : GetTokenForUserCode db code now = .ok token)
    (hv : verify token = .error err) :
    (CheckStatus verify db code now).response =
        ⟨401, [("error", .str ("Stored token is invalid: " ++ err)),
          ("status", .str "failed")]⟩ ∧
      (CheckStatus verify db code now).db = db ∧
      GetTokenForUserCode (CheckStatus verify db code now).db code later =
        GetTokenForUserCode db code later ∧
      GetTokenForUserCode (CheckStatus verify db code now).db code now = .ok token := by
  have hc' : (code == "") = false := by simp [hc]
  have hdb : (CheckStatus verify db code now).db = db := by
    simp only [CheckStatus, hc', hg, hv, Bool.false_eq_true, if_false]
    rw [SetTokenForUserCode_empty db code "" now (Or.inr rfl)]
  refine ⟨?_, hdb, by rw [hdb], by rw [hdb]; exact hg⟩
  simp only [CheckStatus, hc', hg, hv, Bool.false_eq_true, if_false]

/-- The row holds `tok-X`, which the sample verifier rejects: the answer is
401 and the table still holds the row with `tok-X`. -/
theorem CheckStatus_rejected_token_witness :
    (CheckStatus sampleVerifier [activatedRow] "PLANT-AB12CD" 5).response.status = 401 ∧
      (CheckStatus sampleVerifier [activatedRow] "PLANT-AB12CD" 5).db = [activatedRow] :=
  ⟨congrArg Response.status
      (CheckStatus_rejected_token sampleVerifier [activatedRow] "PLANT-AB12CD" "tok-X"
        "token is invalid" 5 6 (by decide) (by decide) (by decide)).1,
    (CheckStatus_rejected_token sampleVerifier [activatedRow] "PLANT-AB12CD" "tok-X"
      "token is invalid" 5 6 (by decide) (by decide) (by decide)).2.1⟩

/-- C22. `CheckStatus` maps the outcome of `GetTokenForUserCode` to the wire
protocol: pending gives 200 with status `pending_activation`; an unknown code
and an expired, never activated code give 404 with status `failed`; a stored
token the verifier accepts gives 200 with status `activated`, the stored token
and token type `Bearer`; an empty `code` parameter gives 400 with no call to
the manager. In none of these cases is the table changed. -/
theorem CheckStatus_wire (verify : Verifier) (db : Store) (code : String) (now : Time) :
    (code ≠ "" → GetTokenForUserCode db code now = .error errPending →
        CheckStatus verify db code now =
          { response := ⟨200, [("status", .str "pending_activation")]⟩,
            db := db, calls := [.GetTokenForUserCode code] }) ∧
      (code ≠ "" → GetTokenForUserCode db code now = .error errNotFound →
        CheckStatus verify db code now =
          { response := ⟨404, [("error", .str errNotFound), ("status", .str "failed")]⟩,
            db := db, calls := [.GetTokenForUserCode code] }) ∧
      (code ≠ "" → GetTokenForUserCode db code now = .error errExpiredNotActivated →
        CheckStatus verify db code now =
          { response := ⟨404, [("error", .str errExpiredNotActivated),
              ("status", .str "failed")]⟩,
            db := db, calls := [.GetTokenForUserCode code] }) ∧
      (∀ token claims, code ≠ "" → GetTokenForUserCode db code now = .ok token →
        verify token = .ok claims →
        CheckStatus verify db code now =
          { response := ⟨200, [("status", .str "activated"), ("token", .str token),
              ("token_type", .str "Bearer")]⟩,
            db := db, calls := [.GetTokenForUserCode code] }) ∧
      (code = "" →
        (CheckStatus verify db code now).response.status = 400 ∧
          (CheckStatus verify db code now).calls = [] ∧
          (CheckStatus verify db code now).db = db) := by
  refine ⟨?_, ?_, ?_, ?_, ?_⟩
  · intro hc hg
    have hc' : (code == "") = false := by simp [hc]
    simp only [CheckStatus, hc', hg, Bool.false_eq_true, if_false]
    rfl
  · intro hc hg
    have hc' : (code == "") = false := by simp [hc]
    simp only [CheckStatus, hc', hg, Bool.false_eq_true, if_false]
    rfl
  · intro hc hg
    have hc' : (code == "") = false := by simp [hc]
    simp only [CheckStatus, hc', hg, Bool.false_eq_true, if_false]
    rfl
  · intro token claims hc hg hv
    have hc' : (code == "") = false := by simp [hc]
    simp only [CheckStatus, hc', hg, hv, Bool.false_eq_true, if_false]
  · intro hc
    subst hc
    simp [CheckStatus]

/-- Scenario A on the wire: the issued code polled at instant 5 gives 200 with
status `pending_activation`. -/
theorem CheckStatus_wire_witness :
    CheckStatus sampleVerifier [issuedRow] "PLANT-AB12CD" 5 =
      { response := ⟨200, [("status", .str "pending_activation")]⟩,
        db := [issuedRow], calls := [.GetTokenForUserCode "PLANT-AB12CD"] } :=
  (CheckStatus_wire sampleVerifier [issuedRow] "PLANT-AB12CD" 5).1 (by decide) (by decide)

/-- C23. `GenerateCode` answers 200 with the issued `user_code`, the
`verification_uri`, `expires_in` equal to the 900 seconds of
`UserCodeDuration` and the positive `interval` 5 when `device_id` is not
empty and `NewCode` stores the row; it answers 400, with no call to the
manager and the table as it was, when the body carries no or an empty
`device_id`. -/
theorem GenerateCode_wire (db : Store) (body : Except String GenerateCodeRequest)
    (u idDraw : String) (now : Time) :
    (∀ req code db', body = .ok req → req.DeviceID ≠ "" →
        NewCode db req.DeviceID u idDraw now = (.ok code, db') →
        GenerateCode db body u idDraw now =
          { response := ⟨200, [("user_code", .str code),
              ("verification_uri", .str "/verify-device"), ("expires_in", .int 900),
              ("interval", .int 5)]⟩,
            db := db', calls := [.NewCode req.DeviceID u idDraw] }) ∧
      (∀ req, body = .ok req → req.DeviceID = "" →
        (GenerateCode db body u idDraw now).response.status = 400 ∧
          (GenerateCode db body u idDraw now).calls = [] ∧
          (GenerateCode db body u idDraw now).db = db) ∧
      (∀ err, body = .error err →
        (GenerateCode db body u idDraw now).response.status = 400 ∧
          (GenerateCode db body u idDraw now).calls = [] ∧
          (GenerateCode db body u idDraw now).db = db) := by
  refine ⟨?_, ?_, ?_⟩
  · intro req code db' hb hd hn
    subst hb
    have hd' : (req.DeviceID == "") = false := by simp [hd]
    have h900 : durationSeconds UserCodeDuration = 900 := by decide
    simp only [GenerateCode, bindGenerateCodeRequest, hd', hn, h900, Bool.false_eq_true,
      if_false]
  · intro req hb hd
    subst hb
    simp [GenerateCode, bindGenerateCodeRequest, hd]
  · intro err hb
    subst hb
    simp [GenerateCode, bindGenerateCodeRequest]

/-- Scenario A on the wire: `dev-1` is answered 200 with `PLANT-AB12CD` and
`expires_in` 900. -/
theorem GenerateCode_wire_witness :
    (GenerateCode [] (.ok ⟨"dev-1"⟩) "ab12cd34-e5f6-4a7b-8c9d-0e1f2a3b4c5d" "id-1" 0).response =
      ⟨200, [("user_code", .str "PLANT-AB12CD"), ("verification_uri", .str "/verify-device"),
        ("expires_in", .int 900), ("interval", .int 5)]⟩ :=
  congrArg HandlerResult.response
    ((GenerateCode_wire [] (.ok ⟨"dev-1"⟩) "ab12cd34-e5f6-4a7b-8c9d-0e1f2a3b4c5d" "id-1" 0).1
      ⟨"dev-1"⟩ "PLANT-AB12CD"
      (NewCode [] "dev-1" "ab12cd34-e5f6-4a7b-8c9d-0e1f2a3b4c5d" "id-1" 0).2 rfl (by decide)
      (by decide))

/-! ## What the manager leaves alone -/

theorem forall₂_map_of {P : Device → Device → Prop} (f : Device → Device)
    (h : ∀ r, P r (f r)) (l : List Device) : List.Forall₂ P l (l.map f) := by
  induction l with
  | nil => exact List.Forall₂.nil
  | cons a l ih => exact List.Forall₂.cons (h a) ih

theorem forall₂_getElem? {P : Device → Device → Prop} {l l' : List Device}
    (h : List.Forall₂ P l l') :
    ∀ (i : Nat) (r : Device), l[i]? = some r → ∃ r', l'[i]? = some r' ∧ P r r' := by
  induction h with
  | nil => intro i r hr; simp at hr
  | cons hab _ ih =>
    intro i r hr
    cases i with
    | zero =>
      simp only [List.getElem?_cons_zero, Option.some.injEq] at hr
      subst hr
      exact ⟨_, by simp, hab⟩
    | succ n =>
      simp only [List.getElem?_cons_succ] at hr
      obtain ⟨r', h1, h2⟩ := ih n r hr
      exact ⟨r', by simpa using h1, h2⟩

theorem RowKept.sameIdentity {userCode token : String} {now : Time} {r r' : Device}
    (h : RowKept userCode token now r r') : SameIdentity r r' := by
  rcases h with h | ⟨_, h⟩
  · subst h
    exact ⟨rfl, rfl, rfl, rfl, rfl⟩
  · subst h
    exact ⟨rfl, rfl, rfl, rfl, rfl⟩

/-- The function `SetTokenForUserCode` leaves every row as it is, or gives a
row with the user code the token and the `updated_at` of the call. -/
theorem SetTokenForUserCode_rows (db : Store) (userCode token : String) (now : Time) :
    List.Forall₂ (RowKept userCode token now) db
      (SetTokenForUserCode db userCode token now).2 := by
  have hrefl : List.Forall₂ (RowKept userCode token now) db db := by
    have := forall₂_map_of (P := RowKept userCode token now) id (fun r => Or.inl rfl) db
    simpa using this
  by_cases he : userCode = "" ∨ token = ""
  · rw [SetTokenForUserCode_empty db userCode token now he]
    exact hrefl
  · push_neg at he
    rcases SetTokenForUserCode_cases db userCode token now he.1 he.2 with
      ⟨err, _, hs⟩ | ⟨m, _, hs⟩
    · rw [hs]
      exact hrefl
    · rw [hs]
      simp only [updateToken]
      apply forall₂_map_of
      intro r
      by_cases hm : updateMatches m userCode r = true
      · right
        have hc : r.UserCode = userCode := by
          simp only [updateMatches, Bool.and_eq_true, beq_iff_eq] at hm
          exact hm.1
        simp [hm, hc]
      · left
        simp [hm]

theorem Preserved.refl (db : Store) : Preserved db db :=
  fun _ r hr => ⟨r, hr, rfl, rfl, rfl, rfl, rfl⟩

theorem Preserved.trans {a b c : Store} (h1 : Preserved a b) (h2 : Preserved b c) :
    Preserved a c := by
  intro i r hr
  obtain ⟨r', hr', s1⟩ := h1 i r hr
  obtain ⟨r'', hr'', s2⟩ := h2 i r' hr'
  exact ⟨r'', hr'', s2.1.trans s1.1, s2.2.1.trans s1.2.1, s2.2.2.1.trans s1.2.2.1,
    s2.2.2.2.1.trans s1.2.2.2.1, s2.2.2.2.2.trans s1.2.2.2.2⟩

/-- One call of the manager preserves the rows of the table. -/
theorem step_preserved (db : Store) (now : Time) (op : Op) : Preserved db (step db now op) := by
  cases op with
  | ValidateUserCode c => exact Preserved.refl db
  | GetTokenForUserCode c => exact Preserved.refl db
  | NewCode deviceID u idDraw =>
    simp only [step]
    rcases NewCode_store db deviceID u idDraw now with h | ⟨x, _, h⟩
    · rw [h]
      exact Preserved.refl db
    · rw [h]
      intro i r hr
      refine ⟨r, ?_, rfl, rfl, rfl, rfl, rfl⟩
      have hi : i < db.length := by
        by_contra hcon
        rw [List.getElem?_eq_none (not_lt.mp hcon)] at hr
        cases hr
      rw [List.getElem?_append_left hi]
      exact hr
  | SetTokenForUserCode c t =>
    simp only [step]
    intro i r hr
    obtain ⟨r', h1, h2⟩ := forall₂_getElem? (SetTokenForUserCode_rows db c t now) i r hr
    exact ⟨r', h1, h2.sameIdentity⟩

/-- C24. The manager preserves existing rows. `ValidateUserCode` and
`GetTokenForUserCode` leave the table as it is; `NewCode` leaves it as it is or
appends one row; `SetTokenForUserCode` leaves each row as it is or gives a row
with the given user code the token and the `updated_at` of the call; and after
any sequence of calls every row of the table is still there, at its place, with
its id, user code, device id, creation and expiry unchanged. -/
theorem manager_frame (db : Store) (now : Time) :
    (∀ c, step db now (.ValidateUserCode c) = db) ∧
      (∀ c, step db now (.GetTokenForUserCode c) = db) ∧
      (∀ deviceID u idDraw, (NewCode db deviceID u idDraw now).2 = db ∨
        ∃ x, (NewCode db deviceID u idDraw now).2 = db ++ [x]) ∧
      (∀ c t, List.Forall₂ (RowKept c t now) db (SetTokenForUserCode db c t now).2) ∧
      (∀ trace : List (Time × Op), Preserved db (run db trace) ∧
        db.length ≤ (run db trace).length) := by
  refine ⟨fun _ => rfl, fun _ => rfl, ?_, fun c t => SetTokenForUserCode_rows db c t now, ?_⟩
  · intro deviceID u idDraw
    rcases NewCode_store db deviceID u idDraw now with h | ⟨x, _, h⟩
    · exact Or.inl h
    · exact Or.inr ⟨x, h⟩
  · intro trace
    have hp : ∀ (tr : List (Time × Op)) (d : Store), Preserved d (run d tr) := by
      intro tr
      induction tr with
      | nil => intro d; exact Preserved.refl d
      | cons a rest ih =>
        intro d
        obtain ⟨n, op⟩ := a
        exact (step_preserved d n op).trans (ih (step d n op))
    refine ⟨hp trace db, ?_⟩
    by_contra hlt
    push_neg at hlt
    have hpos : 0 < db.length := by omega
    have hidx : db.length - 1 < db.length := by omega
    obtain ⟨r', hr', _⟩ := hp trace db (db.length - 1) (db[db.length - 1])
      (List.getElem?_eq_getElem hidx)
    have hnone : (run db trace)[db.length - 1]? = none :=
      List.getElem?_eq_none (by omega)
    rw [hnone] at hr'
    cases hr'

/-! ## The storage layer -/

/-- C25. `GetGardensByQuery` rejects bad parameters before it queries: for a
parameter map with a key outside `name`, `createdStart`, `createdEnd`, `size`
it returns `ErrInvalidQuery`; for a map with allowed keys only whose
`createdStart` or `createdEnd` value is not a valid RFC 3339 timestamp it
returns `ErrValidation`; in both cases it returns no garden and has run no
query, whatever the database would answer. -/
theorem GetGardensByQuery_rejects (validRFC3339 : String → Bool)
    (find : List Condition → Except String (List Garden))
    (params : List (String × String)) :
    ((∃ kv ∈ params, kv.1 ∉ allowedParams) →
        GetGardensByQuery validRFC3339 find params =
          { result := .error .ErrInvalidQuery, finds := [] }) ∧
      ((∀ kv ∈ params, kv.1 ∈ allowedParams) →
        ((∃ v, params.lookup "createdStart" = some v ∧ validRFC3339 v = false) ∨
          (∃ v, params.lookup "createdEnd" = some v ∧ validRFC3339 v = false)) →
        GetGardensByQuery validRFC3339 find params =
          { result := .error .ErrValidation, finds := [] }) := by
  constructor
  · rintro ⟨kv, hkv, hnot⟩
    have hany : params.any (fun kv => !allowedParams.contains kv.1) = true := by
      rw [List.any_eq_true]
      exact ⟨kv, hkv, by simpa using hnot⟩
    simp only [GetGardensByQuery, hany, if_true]
  · intro hall hbad
    have hany : params.any (fun kv => !allowedParams.contains kv.1) = false := by
      rw [List.any_eq_false]
      intro kv hkv
      simpa using hall kv hkv
    simp only [GetGardensByQuery, hany, Bool.false_eq_true, if_false]
    rcases hbad with ⟨v, hv, hinv⟩ | ⟨v, hv, hinv⟩
    · simp only [hv, hinv, Bool.not_false, if_true]
    · cases hs : params.lookup "createdStart" with
      | none => simp only [hv, hinv, Bool.not_false, if_true]
      | some w =>
        cases hw : validRFC3339 w with
        | false => simp only [hw, Bool.not_false, if_true]
        | true => simp only [hw, hv, hinv, Bool.not_true, Bool.not_false, Bool.false_eq_true,
            if_true, if_false]

/-- The two requests of `TestInvalidQueryParameters`: `invalid_param` is
refused as an invalid query. -/
theorem GetGardensByQuery_rejects_witness :
    GetGardensByQuery sampleRFC3339 emptyFind [("invalid_param", "value")] =
      { result := .error .ErrInvalidQuery, finds := [] } :=
  (GetGardensByQuery_rejects sampleRFC3339 emptyFind [("invalid_param", "value")]).1
    ⟨("invalid_param", "value"), by decide, by decide⟩

/-- What `ParseDatabaseError` returns for an error that is not gorm's
record-not-found, by the first of the texts its lower-cased message has. -/
theorem ParseDatabaseError_order (ToLower : String → String) (e : GoError)
    (hn : e.isGormNotFound = false) :
    (strContains (ToLower e.Error) "deadlock" = true →
        ParseDatabaseError ToLower (some e) = some .ErrTransactionFailed) ∧
      (strContains (ToLower e.Error) "deadlock" = false →
        strContains (ToLower e.Error) "deadlock found" = false →
        strContains (ToLower e.Error) "connection" = true →
        ParseDatabaseError ToLower (some e) = some .ErrDatabase) ∧
      (strContains (ToLower e.Error) "deadlock" = false →
        strContains (ToLower e.Error) "deadlock found" = false →
        strContains (ToLower e.Error) "connection" = false →
        strContains (ToLower e.Error) "timeout" = true →
        ParseDatabaseError ToLower (some e) = some .ErrTimeout) ∧
      (strContains (ToLower e.Error) "deadlock" = false →
        strContains (ToLower e.Error) "deadlock found" = false →
        strContains (ToLower e.Error) "connection" = false →
        strContains (ToLower e.Error) "timeout" = false →
        strContains (ToLower e.Error) "unique constraint failed" = true →
        ParseDatabaseError ToLower (some e) = some .ErrConflict) := by
  refine ⟨?_, ?_, ?_, ?_⟩
  · intro h1
    simp [ParseDatabaseError, hn, h1]
  · intro h1 h2 h3
    simp [ParseDatabaseError, hn, h1, h2, h3]
  · intro h1 h2 h3 h4
    simp [ParseDatabaseError, hn, h1, h2, h3, h4]
  · intro h1 h2 h3 h4 h5
    simp [ParseDatabaseError, hn, h1, h2, h3, h4, h5]

/-- C26, as the code has it. `ParseDatabaseError` maps nil to nil and gorm's
record-not-found error to `ErrRecordNotFound`; it maps every other error
whose lower-cased message has `unique constraint failed` to `ErrConflict`
when that message has none of `deadlock`, `connection` and `timeout`, the
texts it tests before; with one of those the error is `ErrTransactionFailed`,
`ErrDatabase` or `ErrTimeout` instead. -/
theorem ParseDatabaseError_conflict (ToLower : String → String) :
    ParseDatabaseError ToLower none = none ∧
      (∀ e : GoError, e.isGormNotFound = true →
        ParseDatabaseError ToLower (some e) = some .ErrRecordNotFound) ∧
      (∀ e : GoError, e.isGormNotFound = false →
        strContains (ToLower e.Error) "unique constraint failed" = true →
        strContains (ToLower e.Error) "deadlock" = false →
        strContains (ToLower e.Error) "deadlock found" = false →
        strContains (ToLower e.Error) "connection" = false →
        strContains (ToLower e.Error) "timeout" = false →
        ParseDatabaseError ToLower (some e) = some .ErrConflict) ∧
      (∀ e : GoError, e.isGormNotFound = false →
        strContains (ToLower e.Error) "unique constraint failed" = true →
        (strContains (ToLower e.Error) "deadlock" = true ∨
          strContains (ToLower e.Error) "deadlock found" = true ∨
          strContains (ToLower e.Error) "connection" = true ∨
          strContains (ToLower e.Error) "timeout" = true) →
        ParseDatabaseError ToLower (some e) ≠ some .ErrConflict) := by
  refine ⟨rfl, ?_, ?_, ?_⟩
  · intro e hn
    simp [ParseDatabaseError, hn]
  · intro e hn hu h1 h2 h3 h4
    exact (ParseDatabaseError_order ToLower e hn).2.2.2 h1 h2 h3 h4 hu
  · intro e hn _ hor
    simp only [ParseDatabaseError, hn, Bool.false_eq_true, if_false]
    cases h1 : strContains (ToLower e.Error) "deadlock" <;>
    cases h2 : strContains (ToLower e.Error) "deadlock found" <;>
    cases h3 : strContains (ToLower e.Error) "connection" <;>
    cases h4 : strContains (ToLower e.Error) "timeout" <;>
    simp_all

/-- The duplicate-key error of SQLite for `gardens.name` becomes
`ErrConflict`. -/
theorem ParseDatabaseError_conflict_witness :
    ParseDatabaseError asciiLower (some (errorsNew "UNIQUE constraint failed: gardens.name")) =
      some .ErrConflict :=
  (ParseDatabaseError_conflict asciiLower).2.2.1
    (errorsNew "UNIQUE constraint failed: gardens.name") rfl (by decide) (by decide)
    (by decide) (by decide) (by decide)

/-- C26 as stated fails: the duplicate-key error for the column
`connections.id` has `unique constraint failed` in its lower-cased message and
is not record-not-found, yet it becomes `ErrDatabase`, since `connection` is
tested first. -/
theorem ParseDatabaseError_conflict_counterexample :
    (errorsNew "UNIQUE constraint failed: connections.id").isGormNotFound = false ∧
      strContains (asciiLower "UNIQUE constraint failed: connections.id")
        "unique constraint failed" = true ∧
      ParseDatabaseError asciiLower
        (some (errorsNew "UNIQUE constraint failed: connections.id")) = some .ErrDatabase ∧
      ParseDatabaseError asciiLower
        (some (errorsNew "UNIQUE constraint failed: connections.id")) ≠ some .ErrConflict := by
  decide

/-- C30 fails on the code. For the connection failure `connection refused`
`ParseDatabaseError` returns the bare sentinel `ErrDatabase`, whose text
`database error` has no `connection` in it, so `IsTemporaryError` reports it
as not retryable; the timeout `connection timeout` fares the same. Deadlocks
and timeouts without `connection` are reported as retryable. -/
theorem IsTemporaryError_connection :
    strContains (asciiLower "connection refused") "connection" = true ∧
      ParseDatabaseError asciiLower (some (errorsNew "connection refused")) =
        some .ErrDatabase ∧
      IsTemporaryError ((ParseDatabaseError asciiLower
        (some (errorsNew "connection refused"))).map StorageError.asError) = false ∧
      strContains (asciiLower "connection timeout") "timeout" = true ∧
      IsTemporaryError ((ParseDatabaseError asciiLower
        (some (errorsNew "connection timeout"))).map StorageError.asError) = false ∧
      IsTemporaryError ((ParseDatabaseError asciiLower
        (some (errorsNew "Deadlock found when trying to get lock"))).map
          StorageError.asError) = true ∧
      IsTemporaryError ((ParseDatabaseError asciiLower
        (some (errorsNew "context deadline exceeded: i/o timeout"))).map
          StorageError.asError) = true := by
  decide

/-- The same for every error: one that is not record-not-found and whose
lower-cased message has `connection` but no `deadlock` is reported as not
retryable once it has gone through `ParseDatabaseError`. -/
theorem IsTemporaryError_connection_general (ToLower : String → String) (e : GoError)
    (hn : e.isGormNotFound = false)
    (h1 : strContains (ToLower e.Error) "deadlock" = false)
    (h2 : strContains (ToLower e.Error) "deadlock found" = false)
    (h3 : strContains (ToLower e.Error) "connection" = true) :
    IsTemporaryError ((ParseDatabaseError ToLower (some e)).map StorageError.asError) =
      false := by
  rw [(ParseDatabaseError_order ToLower e hn).2.1 h1 h2 h3]
  decide

/-! ## The terminal client -/

/-- In the authentication state, with no form on show and a tab without a
list or table, `Update` has no case for a message that is a command: it
returns the model as it is and an empty batch. -/
theorem Update_cmd_message (w : Widgets) (m : Model) (c : Cmd)
    (hs : m.uiState = stateAuth) (hf : m.showingForm = false)
    (ht : m.activeTab = dashboardTab) :
    Update w m (.cmd c) = (m, .Batch []) := by
  simp [Update, updateRest, updateTabs, hs, hf, ht, dashboardTab]

/-- C27 fails on the code. The client waits for the activation of
`PLANT-AB12CD`; its status check receives `pending_activation`. The message
the check produces is the timer command itself, not `authPendingMsg`; `Update`
has no case for it, leaves the model as it is and returns an empty batch, so no
further status check is scheduled. The message `authPendingMsg` would have
scheduled one. -/
theorem pending_response_stops_polling :
    checkAuthStatus waitingModel.deviceCode pendingResponse =
        .cmd (.Tick (2 * Second) .authPendingMsg) ∧
      Update idleWidgets waitingModel
          (checkAuthStatus waitingModel.deviceCode pendingResponse) =
        (waitingModel, .Batch []) ∧
      schedulesStatusCheck
          (Update idleWidgets waitingModel
            (checkAuthStatus waitingModel.deviceCode pendingResponse)).2 = false ∧
      schedulesStatusCheck (Update idleWidgets waitingModel .authPendingMsg).2 = true :=
  ⟨rfl, rfl, rfl, rfl⟩

/-- The same for every client in the authentication state and every status
check that receives `pending_activation`. -/
theorem pending_response_general (w : Widgets) (m : Model) (body : String) (token error : String)
    (hs : m.uiState = stateAuth) (hf : m.showingForm = false)
    (ht : m.activeTab = dashboardTab) (hc : m.deviceCode ≠ "") :
    schedulesStatusCheck
      (Update w m (checkAuthStatus m.deviceCode
        (.response 200 "200 OK" body
          (.ok { Status := "pending_activation", Token := token, Error := error })))).2 =
      false := by
  have hm : checkAuthStatus m.deviceCode
      (.response 200 "200 OK" body
        (.ok { Status := "pending_activation", Token := token, Error := error })) =
      .cmd (.Tick (2 * Second) .authPendingMsg) := by
    simp [checkAuthStatus, hc]
  rw [hm, Update_cmd_message w m _ hs hf ht]
  rfl

/-- What `Update` does with the device code in the authentication state. -/
theorem Update_deviceCodeMsg (w : Widgets) (m : Model) (code uri : String)
    (interval expiresIn : Int) (hs : m.uiState = stateAuth) :
    (Update w m (.deviceCodeMsg code uri interval expiresIn)).2 =
      .Tick (max (if interval > 0 then wrapInt64 (interval * Second) else m.authPollInterval)
        (2 * Second)) .authPendingMsg := by
  have hmax : ∀ x : Int, (if x < 2 * Second then 2 * Second else x) = max x (2 * Second) := by
    intro x
    split
    · rename_i h
      exact (max_eq_right (le_of_lt h)).symm
    · rename_i h
      exact (max_eq_left (not_lt.mp h)).symm
  by_cases hi : interval > 0
  · simp only [Update, hs, beq_self_eq_true, if_true, hi, hmax]
  · simp only [Update, hs, beq_self_eq_true, if_true, hi, if_false, hmax]
    split <;> rfl

/-- In the authentication state the outcome of `Update` on `authSuccessMsg`
does not depend on the token. -/
theorem Update_authSuccess_any (w : Widgets) (m : Model) (t1 t2 : String)
    (hs : m.uiState = stateAuth) :
    Update w m (.authSuccessMsg t1) = Update w m (.authSuccessMsg t2) := by
  simp [Update, hs]

/-- C29 fails on the code. On `authSuccessMsg` in the authentication state
`Update` stops the ticker, marks the model authenticated and moves to the
splash state, but it stores the token nowhere: the model it returns for
`tok-X` is the model it returns for `tok-Y`, the waiting model with those
three fields changed. -/
theorem authSuccess_drops_token :
    (Update idleWidgets waitingModel (.authSuccessMsg "tok-X")).1 =
        { waitingModel with
          pollTicker := some { period := 5 * Second, stopped := true }
          isAuthenticated := true
          uiState := stateSplash } ∧
      (Update idleWidgets waitingModel (.authSuccessMsg "tok-X")).1.isAuthenticated = true ∧
      (Update idleWidgets waitingModel (.authSuccessMsg "tok-X")).1.uiState = stateSplash ∧
      (Update idleWidgets waitingModel (.authSuccessMsg "tok-X")).1 =
        (Update idleWidgets waitingModel (.authSuccessMsg "tok-Y")).1 :=
  ⟨rfl, rfl, rfl, rfl⟩

/-! ## Binds of an activated row, overlapping calls included -/

/-- The first round trip of a bind of a row whose token is set ends the call
with its error: the update is never issued. -/
theorem advance_of_bound {db : Store} {r : Device} (t : String) (now : Time)
    (hu : UniqueUserCodes db) (hr : r ∈ db) (hset : r.Token ≠ "") :
    advance db now ⟨r.UserCode, t, .start⟩ =
      (⟨r.UserCode, t, .done (.error (activatedBindError r t now))⟩, db) := by
  by_cases he : r.UserCode = "" ∨ t = ""
  · have hb : (r.UserCode == "" || t == "") = true := by
      rcases he with h | h <;> simp [h]
    simp only [advance, hb, if_true, activatedBindError, he]
  · have he' := he
    push_neg at he'
    have hb : (r.UserCode == "" || t == "") = false := by simp [he'.1, he'.2]
    have hv := ValidateUserCode_of_mem now hu hr
    by_cases hn : now > r.ExpiresAt
    · rw [validateResult_expired hn] at hv
      simp only [advance, hb, hv, Bool.false_eq_true, if_false, activatedBindError, he, hn,
        if_true]
      rfl
    · rw [validateResult_activated hset hn] at hv
      simp only [advance, hb, hv, Bool.false_eq_true, if_false, activatedBindError, he, hn]
      rfl

/-- C3, as the code has it. For a row of the table whose token is set, in a
table with the unique index on user codes, and every token `t`: a call of
`SetTokenForUserCode` that begins then, so that its validation reads the row
with its token, fails at its first round trip, issues no update and leaves the
table unchanged, so that a `GetTokenForUserCode` on the table it leaves still
returns the row's token. The error is the already-activated error when the
arguments are non-empty and the time is not after `ExpiresAt`, the expired
error when they are non-empty and the time is after `ExpiresAt`, and the
empty-argument error otherwise. Nothing is said of a call whose validation
ran before the token was set. -/
theorem SetTokenForUserCode_activated (db : Store) (r : Device) (t : String)
    (now later : Time) (hu : UniqueUserCodes db) (hr : r ∈ db) (hset : r.Token ≠ "") :
    SetTokenForUserCode db r.UserCode t now =
        (.error (activatedBindError r t now), db) ∧
      advance db now ⟨r.UserCode, t, .start⟩ =
        (⟨r.UserCode, t, .done (.error (activatedBindError r t now))⟩, db) ∧
      GetTokenForUserCode (SetTokenForUserCode db r.UserCode t now).2 r.UserCode later =
        .ok r.Token ∧
      (r.UserCode ≠ "" → t ≠ "" → ¬ now > r.ExpiresAt →
        activatedBindError r t now = cannotSet errAlreadyActivated) ∧
      (r.UserCode ≠ "" → t ≠ "" → now > r.ExpiresAt →
        activatedBindError r t now = cannotSet errExpired) := by
  have hs := SetTokenForUserCode_of_bound t now hu hr hset
  refine ⟨hs, advance_of_bound t now hu hr hset, ?_, ?_, ?_⟩
  · rw [hs, GetTokenForUserCode_of_mem later hu hr, tokenResult_bound later hset]
  · intro hc ht hn
    simp [activatedBindError, hc, ht, hn]
  · intro hc ht hn
    simp [activatedBindError, hc, ht, hn]

/-- Scenario B, second half: binding `tok-Y` at instant 6 to the row that
holds `tok-X` fails with the already-activated error, and a read at instant 7
still returns `tok-X`. -/
theorem SetTokenForUserCode_activated_witness :
    SetTokenForUserCode [activatedRow] "PLANT-AB12CD" "tok-Y" 6 =
        (.error (cannotSet errAlreadyActivated), [activatedRow]) ∧
      GetTokenForUserCode (SetTokenForUserCode [activatedRow] "PLANT-AB12CD" "tok-Y" 6).2
        "PLANT-AB12CD" 7 = .ok "tok-X" :=
  ⟨(SetTokenForUserCode_activated [activatedRow] activatedRow "tok-Y" 6 7
      (by decide) (by decide) (by decide)).1,
    (SetTokenForUserCode_activated [activatedRow] activatedRow "tok-Y" 6 7
      (by decide) (by decide) (by decide)).2.2.1⟩

/-- C3 as stated fails, twice. At instant 1000, after the expiry of the
activated row at 900, binding `tok-Y` fails with the expired error, which is
not the already-activated error. And a token that is set is overwritten by a
call that validated before: the call with `tok-Y` validates at instant 5, the
call with `tok-X` then validates and updates, so that the row holds `tok-X` at
instant 6, and the update of the first call at instant 7 succeeds and leaves
`tok-Y` in the row. -/
theorem SetTokenForUserCode_activated_counterexample :
    (activatedRow ∈ [activatedRow] ∧ activatedRow.Token = "tok-X" ∧
      (SetTokenForUserCode [activatedRow] "PLANT-AB12CD" "tok-Y" 1000).1 =
        .error (cannotSet errExpired) ∧
      (SetTokenForUserCode [activatedRow] "PLANT-AB12CD" "tok-Y" 1000).1 ≠
        .error (cannotSet errAlreadyActivated) ∧
      (SetTokenForUserCode [activatedRow] "PLANT-AB12CD" "tok-Y" 1000).1 ≠
        .error errAlreadyActivated) ∧
    ((runEvents [issuedRow] twoCalls [.advance 1 5, .advance 0 5, .advance 0 6]).2 =
        [{ issuedRow with Token := "tok-X", UpdatedAt := 6 }] ∧
      runEvents [issuedRow] twoCalls
          [.advance 1 5, .advance 0 5, .advance 0 6, .advance 1 7] =
        ([⟨"PLANT-AB12CD", "tok-X", .done (.ok ())⟩,
            ⟨"PLANT-AB12CD", "tok-Y", .done (.ok ())⟩],
          [{ issuedRow with Token := "tok-Y", UpdatedAt := 7 }])) := by
  decide

/-- A round trip of a call keeps the unique index and a row whose token is
set, and leaves no call on that row's user code between validation and update,
when the call was not there before. -/
theorem advance_keeps {db : Store} {r : Device} (now : Time) (c : BindCall)
    (hu : UniqueUserCodes db) (hr : r ∈ db) (hset : r.Token ≠ "")
    (hp : pendingOn r.UserCode c = false) :
    UniqueUserCodes (advance db now c).2 ∧ r ∈ (advance db now c).2 ∧
      pendingOn r.UserCode (advance db now c).1 = false := by
  obtain ⟨code, token, state⟩ := c
  cases state with
  | done res => exact ⟨hu, hr, hp⟩
  | validated m =>
    have hne : code ≠ r.UserCode := by
      intro h
      subst h
      simp [pendingOn] at hp
    refine ⟨updateToken_unique m code token now hu,
      updateToken_other m code token now hr (fun h => hne h.symm), ?_⟩
    simp [advance, pendingOn]
  | start =>
    by_cases hc : code = r.UserCode
    · subst hc
      rw [advance_of_bound token now hu hr hset]
      exact ⟨hu, hr, by simp [pendingOn]⟩
    · have hpn : ∀ c' : BindCall, c'.userCode = code → pendingOn r.UserCode c' = false := by
        intro c' h
        simp [pendingOn, h, hc]
      by_cases hb : (code == "" || token == "") = true
      · simp only [advance, hb, if_true]
        exact ⟨hu, hr, hpn _ rfl⟩
      · cases hv : ValidateUserCode db code now with
        | error err =>
          simp only [advance, hb, hv]
          exact ⟨hu, hr, hpn _ rfl⟩
        | ok m =>
          simp only [advance, hb, hv]
          exact ⟨hu, hr, hpn _ rfl⟩

/-- Any sequence of manager calls and of round trips of calls under way keeps
the unique index and a row whose token is set, when no call on the row's user
code stands between its validation and its update at the start. -/
theorem runEvents_keeps {r : Device} (hset : r.Token ≠ "") (events : List Event) :
    ∀ {db : Store} {calls : List BindCall}, UniqueUserCodes db → r ∈ db →
      calls.any (pendingOn r.UserCode) = false →
      UniqueUserCodes (runEvents db calls events).2 ∧ r ∈ (runEvents db calls events).2 := by
  induction events with
  | nil => intro db calls hu hr _; exact ⟨hu, hr⟩
  | cons e rest ih =>
    intro db calls hu hr hp
    cases e with
    | call now op =>
      have h1 : isBindOf r.UserCode db now op = false := by
        cases op with
        | SetTokenForUserCode c t =>
          by_cases hc : c = r.UserCode
          · subst hc
            simp [isBindOf, SetTokenForUserCode_of_bound t now hu hr hset]
          · simp [isBindOf, hc]
        | NewCode _ _ _ => rfl
        | ValidateUserCode _ => rfl
        | GetTokenForUserCode _ => rfl
      obtain ⟨hu', hr'⟩ := step_keeps now op hu hr h1
      exact ih hu' hr' hp
    | advance i now =>
      simp only [runEvents]
      cases hi : calls[i]? with
      | none =>
        simp only [advanceAt, hi]
        exact ih hu hr hp
      | some c =>
        have hc : pendingOn r.UserCode c = false := by
          rw [List.any_eq_false] at hp
          have hmem : c ∈ calls := List.getElem?_mem hi
          simpa using hp c hmem
        obtain ⟨hu', hr', hp'⟩ := advance_keeps now c hu hr hset hc
        simp only [advanceAt, hi]
        refine ih hu' hr' ?_
        rw [List.any_eq_false] at hp ⊢
        intro x hx
        rcases List.mem_or_eq_of_mem_set hx with h | h
        · exact hp x h
        · rw [h]
          simpa using hp'

/-- C5, as the code has it. Idempotent read after activation, for binds that
begin after it. For a row of the table whose token is set, in a table with the
unique index on user codes, when no call of `SetTokenForUserCode` on the row's
user code stands between its validation and its update: after any sequence of
manager calls (reads among them) and of round trips of overlapping binds, made
at any instants, `GetTokenForUserCode` returns the row's token at every time,
also after `ExpiresAt`. -/
theorem read_after_activation (db : Store) (r : Device) (hu : UniqueUserCodes db)
    (hr : r ∈ db) (hset : r.Token ≠ "") (calls : List BindCall)
    (hp : calls.any (pendingOn r.UserCode) = false) (events : List Event) (later : Time) :
    GetTokenForUserCode (runEvents db calls events).2 r.UserCode later = .ok r.Token := by
  obtain ⟨hu', hr'⟩ := runEvents_keeps hset events hu hr hp
  rw [GetTokenForUserCode_of_mem later hu' hr', tokenResult_bound later hset]

/-- The row holds `tok-X`; two binds begin afterwards and overlap, with a read
and a new code in between, all past the expiry at 900: the row still yields
`tok-X`. -/
theorem read_after_activation_witness :
    GetTokenForUserCode
      (runEvents [activatedRow]
        [⟨"PLANT-AB12CD", "tok-Y", .start⟩, ⟨"PLANT-AB12CD", "tok-Z", .start⟩]
        [.call 1000 (.GetTokenForUserCode "PLANT-AB12CD"), .advance 0 1001, .advance 1 1001,
         .call 1002 (.NewCode "dev-2" "0f3a9c77-1111" "id-2"), .advance 0 1003,
         .advance 1 1003, .call 1004 (.SetTokenForUserCode "PLANT-AB12CD" "tok-W")]).2
      "PLANT-AB12CD" 5000 = .ok "tok-X" :=
  read_after_activation [activatedRow] activatedRow (by decide) (by decide) (by decide)
    _ (by decide) _ 5000

/-- C5 as stated fails: the call with `tok-Y` validates at instant 5 while the
row is unbound; the call with `tok-X` then validates and updates, and a read
at instant 6 returns `tok-X`; the update of the first call follows at
instant 7, and the read at instant 8 returns `tok-Y`. -/
theorem read_after_activation_counterexample :
    GetTokenForUserCode
        (runEvents [issuedRow] twoCalls [.advance 1 5, .advance 0 5, .advance 0 6]).2
        "PLANT-AB12CD" 6 = .ok "tok-X" ∧
      GetTokenForUserCode
        (runEvents [issuedRow] twoCalls
          [.advance 1 5, .advance 0 5, .advance 0 6,
           .call 6 (.GetTokenForUserCode "PLANT-AB12CD"), .advance 1 7]).2
        "PLANT-AB12CD" 8 = .ok "tok-Y" := by
  decide

/-! ## The delays before a status check -/

/-- In the authentication state, with no form on show and a tab without a list
or table, `Update` schedules a timer for `authPendingMsg` on no message but the
device code. -/
theorem Update_no_poll (w : Widgets) (m : Model) (msg : Msg)
    (hs : m.uiState = stateAuth) (hf : m.showingForm = false)
    (ht : m.activeTab = dashboardTab)
    (hne : ∀ code uri interval expiresIn, msg ≠ .deviceCodeMsg code uri interval expiresIn) :
    pollDelays (Update w m msg).2 = [] := by
  have h1 : stateAuth ≠ stateSplash := by decide
  have h2 : stateAuth ≠ stateLoading := by decide
  have h3 : stateAuth ≠ stateReady := by decide
  cases msg with
  | deviceCodeMsg code uri interval expiresIn => exact absurd rfl (hne code uri interval expiresIn)
  | KeyMsg key =>
    simp only [Update, hs, beq_self_eq_true, if_true]
    split
    · rfl
    · simp [updateRest, updateTabs, hs, hf, ht, dashboardTab, h1, h2, h3, pollDelays,
        pollDelays.delaysOf]
  | tickMsg =>
    simp only [Update, hs, beq_self_eq_true, if_true]
    split <;> rfl
  | authPendingMsg => simp [Update, hs, pollDelays]
  | authSuccessMsg token =>
    simp [Update, hs, pollDelays, pollDelays.delaysOf, loadingTick]
  | errMsg error => simp [Update, hs, pollDelays]
  | WindowSizeMsg width height =>
    simp [Update, updateRest, updateTabs, hs, hf, ht, dashboardTab, pollDelays,
      pollDelays.delaysOf]
  | loadingTickMsg =>
    simp [Update, updateRest, updateTabs, hs, hf, ht, dashboardTab, h2, pollDelays,
      pollDelays.delaysOf]
  | spinnerTickMsg =>
    simp [Update, updateRest, updateTabs, hs, hf, ht, dashboardTab, h2, pollDelays,
      pollDelays.delaysOf]
  | cmd c =>
    simp [Update, updateRest, updateTabs, hs, hf, ht, dashboardTab, pollDelays,
      pollDelays.delaysOf]
  | other type =>
    simp [Update, updateRest, updateTabs, hs, hf, ht, dashboardTab, pollDelays,
      pollDelays.delaysOf]

/-- The two side conditions hold throughout the authentication state: they
hold of `initialModel`, and `Update` keeps them. -/
theorem Update_auth_invariant (w : Widgets) (m : Model) (msg : Msg)
    (hs : m.uiState = stateAuth) (hf : m.showingForm = false)
    (ht : m.activeTab = dashboardTab) :
    (Update w m msg).1.showingForm = false ∧ (Update w m msg).1.activeTab = dashboardTab := by
  have h1 : stateAuth ≠ stateSplash := by decide
  have h2 : stateAuth ≠ stateLoading := by decide
  have h3 : stateAuth ≠ stateReady := by decide
  cases msg with
  | deviceCodeMsg code uri interval expiresIn =>
    simp only [Update, hs, beq_self_eq_true, if_true]
    constructor
    · split <;> split <;> exact hf
    · split <;> split <;> exact ht
  | KeyMsg key =>
    simp only [Update, hs, beq_self_eq_true, if_true]
    split
    · exact ⟨hf, ht⟩
    · simp [updateRest, updateTabs, hs, hf, ht, dashboardTab, h1, h2, h3]
  | tickMsg =>
    simp only [Update, hs, beq_self_eq_true, if_true]
    split <;> exact ⟨hf, ht⟩
  | authPendingMsg => simp [Update, hs, hf, ht]
  | authSuccessMsg token => simp [Update, hs, hf, ht]
  | errMsg error => simp [Update, hs, hf, ht]
  | WindowSizeMsg width height =>
    simp [Update, updateRest, updateTabs, hs, hf, ht, dashboardTab]
  | loadingTickMsg =>
    simp [Update, updateRest, updateTabs, hs, hf, ht, dashboardTab, h2]
  | spinnerTickMsg =>
    simp [Update, updateRest, updateTabs, hs, hf, ht, dashboardTab, h2]
  | cmd c => simp [Update, updateRest, updateTabs, hs, hf, ht, dashboardTab]
  | other type => simp [Update, updateRest, updateTabs, hs, hf, ht, dashboardTab]

/-- C28, as the code has it. In the authentication state (no form on show,
dashboard tab) every delay `Update` schedules before a status check is the one
it schedules on receiving the device code, and it equals the server-advised
polling interval clamped to a floor of 2 seconds whenever the advised interval,
in nanoseconds, is below 2^63: for a positive advised interval it is the larger
of that interval and 2 seconds, and with no positive interval advised it is the
larger of the stored interval and 2 seconds, which is 5 seconds for the default
of 5 seconds. No delay is shorter than 2 seconds, whatever is advised. -/
theorem poll_delays (w : Widgets) (m : Model) (hs : m.uiState = stateAuth)
    (hf : m.showingForm = false) (ht : m.activeTab = dashboardTab) :
    (∀ (code uri : String) (interval expiresIn : Int),
      (0 < interval → interval * Second < 2 ^ 63 →
          pollDelays (Update w m (.deviceCodeMsg code uri interval expiresIn)).2 =
            [max (interval * Second) (2 * Second)]) ∧
        (interval ≤ 0 →
          pollDelays (Update w m (.deviceCodeMsg code uri interval expiresIn)).2 =
            [max m.authPollInterval (2 * Second)]) ∧
        (interval ≤ 0 → m.authPollInterval = 5 * Second →
          pollDelays (Update w m (.deviceCodeMsg code uri interval expiresIn)).2 =
            [5 * Second])) ∧
      (∀ msg : Msg,
        (∀ code uri interval expiresIn, msg ≠ .deviceCodeMsg code uri interval expiresIn) →
        pollDelays (Update w m msg).2 = []) ∧
      (∀ (msg : Msg), ∀ d ∈ pollDelays (Update w m msg).2, 2 * Second ≤ d) := by
  have hdev : ∀ (code uri : String) (interval expiresIn : Int),
      pollDelays (Update w m (.deviceCodeMsg code uri interval expiresIn)).2 =
        [max (if interval > 0 then wrapInt64 (interval * Second) else m.authPollInterval)
          (2 * Second)] := by
    intro code uri interval expiresIn
    rw [Update_deviceCodeMsg w m code uri interval expiresIn hs]
    simp [pollDelays]
  refine ⟨?_, fun msg hne => Update_no_poll w m msg hs hf ht hne, ?_⟩
  · intro code uri interval expiresIn
    refine ⟨?_, ?_, ?_⟩
    · intro hpos hlt
      have hw : wrapInt64 (interval * Second) = interval * Second := by
        have h0 : 0 ≤ interval * Second := by
          have : (0 : Int) ≤ Second := by decide
          positivity
        unfold wrapInt64
        omega
      rw [hdev]
      simp [hpos, hw]
    · intro hle
      rw [hdev]
      simp [not_lt.mpr hle]
    · intro hle h5
      rw [hdev]
      have : max (5 * Second) (2 * Second) = 5 * Second := by decide
      simp [not_lt.mpr hle, h5, this]
  · intro msg d hd
    by_cases hne : ∀ code uri interval expiresIn,
        msg ≠ .deviceCodeMsg code uri interval expiresIn
    · rw [Update_no_poll w m msg hs hf ht hne] at hd
      cases hd
    · push_neg at hne
      obtain ⟨code, uri, interval, expiresIn, rfl⟩ := hne
      rw [hdev] at hd
      simp only [List.mem_singleton] at hd
      rw [hd]
      exact le_max_right _ _

/-- The server advises 1 second: the first status check is scheduled after
2 seconds. -/
theorem poll_delays_witness :
    pollDelays (Update idleWidgets (initialModel 80 24 "tui-1")
        (.deviceCodeMsg "PLANT-AB12CD" "/verify-device" 1 900)).2 =
      [max (1 * Second) (2 * Second)] :=
  ((poll_delays idleWidgets (initialModel 80 24 "tui-1") rfl rfl rfl).1 "PLANT-AB12CD"
    "/verify-device" 1 900).1 (by decide) (by decide)

/-- C28 as stated fails: the server advises 9223372037 seconds, whose count of
nanoseconds is 2^63 or more; the product overflows the 64-bit duration to a
negative value, and the status check is scheduled after the floor of 2 seconds,
not after the advised interval. -/
theorem poll_delays_counterexample :
    pollDelays (Update idleWidgets (initialModel 80 24 "tui-1")
        (.deviceCodeMsg "PLANT-AB12CD" "/verify-device" 9223372037 900)).2 =
        [2 * Second] ∧
      wrapInt64 (9223372037 * Second) = -9223372036709551616 ∧
      max (9223372037 * Second) (2 * Second) = 9223372037 * Second ∧
      (2 * Second : Int) ≠ max (9223372037 * Second) (2 * Second) := by
  refine ⟨?_, by decide, by decide, by decide⟩
  rw [Update_deviceCodeMsg idleWidgets (initialModel 80 24 "tui-1") "PLANT-AB12CD"
    "/verify-device" 9223372037 900 rfl]
  decide

end Plantastic
